import Mathlib

set_option maxRecDepth 100000

/-!
Verification development for the bg-text-normalizer repository.

The Python sources are shallowly embedded: strings become `String`/`List Char`,
dictionary indexing (`D[k]`, which may raise `KeyError`) becomes `Option`-valued
lookup, `dict.get(k, default)` becomes a total function, and a Python function
that may raise an exception is embedded as an `Option`-returning function
(`none` = an uncaught exception escapes).  `int(s)` on a string is embedded as
`pyIntOfDigits` (`none` = `ValueError`), and the CPython `float(s)` /
`f-string :.10g` round-trip used by `float_to_words(float(num_str))` is
embedded exactly as correctly rounded IEEE-754 binary64 conversion followed by
`%.10g` formatting (`pyFloat10g`).
-/

namespace BG

/-! ## Character and list helpers (Python semantics) -/

/-- Python `str.isdigit` restricted to ASCII digits (the only digits that occur). -/
def isDigitC (c : Char) : Bool := '0' ≤ c && c ≤ '9'

/-- Numeric value of an ASCII digit character. -/
def digitVal (c : Char) : Nat := c.toNat - '0'.toNat

/-- Python whitespace class `\s` (ASCII part; inputs contain only these). -/
def isWS (c : Char) : Bool :=
  c = ' ' || c = '\t' || c = '\n' || c = '\r' || c = '\x0b' || c = '\x0c'

/-- Cyrillic block, as used by Python's Unicode `\w` for the texts at hand. -/
def isCyr (c : Char) : Bool := 0x400 ≤ c.toNat && c.toNat ≤ 0x4FF

/-- Python regex `\w` for the character repertoire of this code base. -/
def isWordC (c : Char) : Bool := c.isAlpha || isDigitC c || c = '_' || isCyr c

def isWordO : Option Char → Bool
  | none => false
  | some c => isWordC c

/-- `\b` between a previous char and a next char. -/
def boundaryB (prev nxt : Option Char) : Bool := isWordO prev != isWordO nxt

/-- Value of a digit string (no sign), `int("007") = 7`. -/
def natOfDigits (l : List Char) : Nat := l.foldl (fun a c => a * 10 + digitVal c) 0

/-- Python `int(s)` on the strings reaching it here: nonempty all-digit strings
parse, anything else raises `ValueError` (= `none`). -/
def pyIntOfDigits (l : List Char) : Option Nat :=
  if l ≠ [] ∧ l.all isDigitC then some (natOfDigits l) else none

/-- Python `str.lstrip()`. -/
def pyLStrip (l : List Char) : List Char := l.dropWhile isWS

/-- Python `str.rstrip()`. -/
def pyRStrip (l : List Char) : List Char := (l.reverse.dropWhile isWS).reverse

/-- Python `str.strip()`. -/
def pyStripL (l : List Char) : List Char := pyRStrip (pyLStrip l)

def pyStrip (s : String) : String := ⟨pyStripL s.data⟩

/-- Python `str.rstrip('0')`. -/
def rstripZeros (l : List Char) : List Char := (l.reverse.dropWhile (· = '0')).reverse

/-- `' '.join(parts)` (general separator). -/
def sjoin (sep : String) : List String → String
  | [] => ""
  | [s] => s
  | s :: rest => s ++ sep ++ sjoin sep rest

/-- Split at the first occurrence of `c` (Python `s.split(c, 1)` when present). -/
def splitFirst (c : Char) : List Char → (List Char × List Char)
  | [] => ([], [])
  | a :: t =>
    if a = c then ([], t)
    else
      let r := splitFirst c t
      (a :: r.1, r.2)

/-- Decimal digit characters of `n`, most significant first. -/
def natDigitsAux : Nat → Nat → List Char
  | 0, _ => []
  | _ + 1, 0 => []
  | fuel + 1, n => natDigitsAux fuel (n / 10) ++ [Char.ofNat ('0'.toNat + n % 10)]

def natDigits (n : Nat) : List Char :=
  if n = 0 then ['0'] else natDigitsAux (n + 1) n

def natStr (n : Nat) : String := ⟨natDigits n⟩

/-! ## bg_numbers.py -/

/-- Grammatical gender; the source passes the strings 'm'/'f'/'n'
(any other string behaves as 'm', a case the pipeline never produces). -/
inductive Gender | m | f | n
deriving DecidableEq, Repr

open Gender

/-- `DIGIT_WORDS.get(d, d)` — digit-by-digit fallback table (total, default = the char). -/
def DIGIT_WORDS_get (c : Char) : String :=
  match c with
  | '0' => "нула" | '1' => "едно" | '2' => "две" | '3' => "три" | '4' => "четири"
  | '5' => "пет" | '6' => "шест" | '7' => "седем" | '8' => "осем" | '9' => "девет"
  | c => String.singleton c

def ONES_M : Nat → Option String
  | 0 => some "" | 1 => some "един" | 2 => some "два" | 3 => some "три"
  | 4 => some "четири" | 5 => some "пет" | 6 => some "шест" | 7 => some "седем"
  | 8 => some "осем" | 9 => some "девет" | _ => none

def ONES_F : Nat → Option String
  | 0 => some "" | 1 => some "една" | 2 => some "две" | 3 => some "три"
  | 4 => some "четири" | 5 => some "пет" | 6 => some "шест" | 7 => some "седем"
  | 8 => some "осем" | 9 => some "девет" | _ => none

def ONES_N : Nat → Option String
  | 0 => some "" | 1 => some "едно" | 2 => some "две" | 3 => some "три"
  | 4 => some "четири" | 5 => some "пет" | 6 => some "шест" | 7 => some "седем"
  | 8 => some "осем" | 9 => some "девет" | _ => none

def TEENS : Nat → Option String
  | 10 => some "десет" | 11 => some "единадесет" | 12 => some "дванадесет"
  | 13 => some "тринадесет" | 14 => some "четиринадесет" | 15 => some "петнадесет"
  | 16 => some "шестнадесет" | 17 => some "седемнадесет" | 18 => some "осемнадесет"
  | 19 => some "деветнадесет" | _ => none

def TENS : Nat → Option String
  | 2 => some "двадесет" | 3 => some "тридесет" | 4 => some "четиридесет"
  | 5 => some "петдесет" | 6 => some "шестдесет" | 7 => some "седемдесет"
  | 8 => some "осемдесет" | 9 => some "деветдесет" | _ => none

def HUNDREDS : Nat → Option String
  | 1 => some "сто" | 2 => some "двеста" | 3 => some "триста"
  | 4 => some "четиристотин" | 5 => some "петстотин" | 6 => some "шестстотин"
  | 7 => some "седемстотин" | 8 => some "осемстотин" | 9 => some "деветстотин"
  | _ => none

/-- `ORDINAL_ONES_*.get(n, '')` per gender (total, default `''`). -/
def ORDINAL_ONES_get (g : Gender) (n : Nat) : String :=
  match g, n with
  | .m, 1 => "първи" | .m, 2 => "втори" | .m, 3 => "трети" | .m, 4 => "четвърти"
  | .m, 5 => "пети" | .m, 6 => "шести" | .m, 7 => "седми" | .m, 8 => "осми"
  | .m, 9 => "девети" | .m, 10 => "десети"
  | .f, 1 => "първа" | .f, 2 => "втора" | .f, 3 => "трета" | .f, 4 => "четвърта"
  | .f, 5 => "пета" | .f, 6 => "шеста" | .f, 7 => "седма" | .f, 8 => "осма"
  | .f, 9 => "девета" | .f, 10 => "десета"
  | .n, 1 => "първо" | .n, 2 => "второ" | .n, 3 => "трето" | .n, 4 => "четвърто"
  | .n, 5 => "пето" | .n, 6 => "шесто" | .n, 7 => "седмо" | .n, 8 => "осмо"
  | .n, 9 => "девето" | .n, 10 => "десето"
  | _, _ => ""

def ORDINAL_TEENS_get (g : Gender) (k : Nat) : String :=
  match g, k with
  | .m, 11 => "единадесети" | .m, 12 => "дванадесети" | .m, 13 => "тринадесети"
  | .m, 14 => "четиринадесети" | .m, 15 => "петнадесети" | .m, 16 => "шестнадесети"
  | .m, 17 => "седемнадесети" | .m, 18 => "осемнадесети" | .m, 19 => "деветнадесети"
  | .f, 11 => "единадесета" | .f, 12 => "дванадесета" | .f, 13 => "тринадесета"
  | .f, 14 => "четиринадесета" | .f, 15 => "петнадесета" | .f, 16 => "шестнадесета"
  | .f, 17 => "седемнадесета" | .f, 18 => "осемнадесета" | .f, 19 => "деветнадесета"
  | .n, 11 => "единадесето" | .n, 12 => "дванадесето" | .n, 13 => "тринадесето"
  | .n, 14 => "четиринадесето" | .n, 15 => "петнадесето" | .n, 16 => "шестнадесето"
  | .n, 17 => "седемнадесето" | .n, 18 => "осемнадесето" | .n, 19 => "деветнадесето"
  | _, _ => ""

def ORDINAL_TENS_get (g : Gender) (k : Nat) : String :=
  match g, k with
  | .m, 2 => "двадесети" | .m, 3 => "тридесети" | .m, 4 => "четиридесети"
  | .m, 5 => "петдесети" | .m, 6 => "шестдесети" | .m, 7 => "седемдесети"
  | .m, 8 => "осемдесети" | .m, 9 => "деветдесети"
  | .f, 2 => "двадесета" | .f, 3 => "тридесета" | .f, 4 => "четиридесета"
  | .f, 5 => "петдесета" | .f, 6 => "шестдесета" | .f, 7 => "седемдесета"
  | .f, 8 => "осемдесета" | .f, 9 => "деветдесета"
  | .n, 2 => "двадесето" | .n, 3 => "тридесето" | .n, 4 => "четиридесето"
  | .n, 5 => "петдесето" | .n, 6 => "шестдесето" | .n, 7 => "седемдесето"
  | .n, 8 => "осемдесето" | .n, 9 => "деветдесето"
  | _, _ => ""

def ORDINAL_HUNDREDS_get (g : Gender) (k : Nat) : String :=
  match g, k with
  | .m, 1 => "стотен" | .m, 2 => "двестотен" | .m, 3 => "тристотен"
  | .m, 4 => "четиристотен" | .m, 5 => "петстотен" | .m, 6 => "шестстотен"
  | .m, 7 => "седемстотен" | .m, 8 => "осемстотен" | .m, 9 => "деветстотен"
  | .f, 1 => "стотна" | .f, 2 => "двестотна" | .f, 3 => "тристотна"
  | .f, 4 => "четиристотна" | .f, 5 => "петстотна" | .f, 6 => "шестстотна"
  | .f, 7 => "седемстотна" | .f, 8 => "осемстотна" | .f, 9 => "деветстотна"
  | .n, 1 => "стотно" | .n, 2 => "двестотно" | .n, 3 => "тристотно"
  | .n, 4 => "четиристотно" | .n, 5 => "петстотно" | .n, 6 => "шестстотно"
  | .n, 7 => "седемстотно" | .n, 8 => "осемстотно" | .n, 9 => "деветстотно"
  | _, _ => ""

/-- `_get_ones(gender)` — ones dictionary selection. -/
def get_ones : Gender → Nat → Option String
  | f => ONES_F
  | n => ONES_N
  | m => ONES_M

/-- `_cardinal_under_1000(n, gender)`; dictionary indexing may raise `KeyError`
(`HUNDREDS[hundreds]` for `hundreds ≥ 10`), hence `Option`. -/
def cardinal_under_1000 (num : Nat) (g : Gender) : Option String :=
  if num = 0 then some ""
  else
    let hundreds := num / 100
    let remainder := num % 100
    let p1 : Option (List String) :=
      if hundreds > 0 then (HUNDREDS hundreds).map ([·]) else some []
    do
      let parts1 ← p1
      let parts ←
        if remainder = 0 then
          pure parts1
        else if remainder < 10 then do
          let w ← get_ones g remainder
          pure (parts1 ++ (if hundreds > 0 then ["и"] else []) ++ [w])
        else if remainder < 20 then do
          let w ← TEENS remainder
          pure (parts1 ++ (if hundreds > 0 then ["и"] else []) ++ [w])
        else do
          let tens_digit := remainder / 10
          let ones_digit := remainder % 10
          let tw ← TENS tens_digit
          let p2 := parts1 ++ (if hundreds > 0 && ones_digit = 0 then ["и"] else []) ++ [tw]
          if ones_digit > 0 then do
            let ow ← get_ones g ones_digit
            pure (p2 ++ ["и", ow])
          else
            pure p2
      pure (sjoin " " parts)

/-- Digit-by-digit fallback: `' '.join(DIGIT_WORDS.get(d, d) for d in str(n))`. -/
def digitByDigit (num : Nat) : String :=
  sjoin " " ((natDigits num).map DIGIT_WORDS_get)

/-- Body of `number_to_words_cardinal` for positive `n` (written with explicit
`Option.bind` so each scale segment is a separate subterm). -/
def cardinalCore (num : Nat) (g : Gender) : Option String :=
  if num > 999999999999 then some (digitByDigit num)
  else
    let billions := num / 1000000000
    let r1 := num % 1000000000
    let millions := r1 / 1000000
    let r2 := r1 % 1000000
    let thousands := r2 / 1000
    let r3 := r2 % 1000
    (if billions > 0 then
       if billions = 1 then some ["един милиард"]
       else if billions = 2 then some ["два милиарда"]
       else (cardinal_under_1000 billions m).map (fun s => [s ++ " милиарда"])
     else some []).bind (fun pB =>
    (if millions > 0 then
       if millions = 1 then some ["един милион"]
       else if millions = 2 then some ["два милиона"]
       else (cardinal_under_1000 millions m).map (fun s => [s ++ " милиона"])
     else some []).bind (fun pM =>
    (if thousands > 0 then
       if thousands = 1 then some ["хиляда"]
       else if thousands = 2 then some ["две хиляди"]
       else (cardinal_under_1000 thousands f).map (fun s => [s ++ " хиляди"])
     else some []).bind (fun pT =>
    (if r3 > 0 then
       (cardinal_under_1000 r3 g).bind (fun remainder_str =>
         if pB ++ pM ++ pT ≠ [] then
           if r3 < 100 then some (pB ++ pM ++ pT ++ ["и " ++ remainder_str])
           else if r3 % 100 = 0 then some (pB ++ pM ++ pT ++ ["и " ++ remainder_str])
           else some (pB ++ pM ++ pT ++ [remainder_str])
         else some [remainder_str])
     else some (pB ++ pM ++ pT)).bind (fun parts =>
    some (sjoin " " parts)))))

/-- `number_to_words_cardinal(n, gender)`. -/
def number_to_words_cardinal (num : Int) (g : Gender) : Option String :=
  if num = 0 then some "нула"
  else if num < 0 then (fun s => "минус " ++ s) <$> cardinalCore num.natAbs g
  else cardinalCore num.toNat g

/-- Body of `number_to_words_ordinal` for positive `n`.  The source recursion
reaches depth at most 4 (thousands → hundreds → tens → ones); `fuel` only
bounds that structural recursion and is never exhausted on reachable calls. -/
def ordinalCore : Nat → Nat → Gender → Option String
  | 0, _, _ => none
  | fuel + 1, num, g =>
    if num ≥ 1000 then
      let thousands := num / 1000
      let remainder := num % 1000
      if remainder = 0 then do
        let base ←
          if thousands = 1 then pure "хиляд"
          else if thousands = 2 then pure "двехиляд"
          else do
            let s ← cardinal_under_1000 thousands f
            pure (s ++ "хиляд")
        let base := pyStrip base
        match g with
        | f => pure (base ++ "на")
        | n => pure (base ++ "но")
        | m => pure (base ++ "ен")
      else do
        let leading ← number_to_words_cardinal (num - remainder : Nat) g
        let trailing ← ordinalCore fuel remainder g
        pure (leading ++ " " ++ trailing)
    else if num ≥ 100 then
      let hundreds_digit := num / 100
      let remainder := num % 100
      if remainder = 0 then pure (ORDINAL_HUNDREDS_get g hundreds_digit)
      else do
        let hw ← HUNDREDS hundreds_digit
        let tr ← ordinalCore fuel remainder g
        pure (hw ++ " " ++ tr)
    else if num ≥ 20 then
      let tens_digit := num / 10
      let ones_digit := num % 10
      if ones_digit = 0 then pure (ORDINAL_TENS_get g tens_digit)
      else do
        let tw ← TENS tens_digit
        let tr ← ordinalCore fuel ones_digit g
        pure (tw ++ " и " ++ tr)
    else if 11 ≤ num ∧ num ≤ 19 then pure (ORDINAL_TEENS_get g num)
    else if 1 ≤ num ∧ num ≤ 10 then pure (ORDINAL_ONES_get g num)
    else number_to_words_cardinal (num : Int) g

/-- `number_to_words_ordinal(n, gender)`. -/
def number_to_words_ordinal (num : Int) (g : Gender) : Option String :=
  if num ≤ 0 then number_to_words_cardinal num g
  else ordinalCore 5 num.toNat g

/-- Shared tail of `float_to_words` once the string form `s` of the value is
fixed (`s = f` for a `str` argument, `s = f'{f:.10g}'` for a `float`). -/
def float_to_words_core (s0 : String) (g : Gender) : Option String :=
  let sL := s0.data.map (fun c => if c = ',' then '.' else c)
  if ¬ sL.contains '.' then do
    let n ← pyIntOfDigits sL
    number_to_words_cardinal (n : Int) g
  else
    let (whole_str, decimal_str0) := splitFirst '.' sL
    let decimal_str := rstripZeros decimal_str0
    do
      let whole ← if whole_str = [] then pure 0 else pyIntOfDigits whole_str
      if decimal_str = [] then
        number_to_words_cardinal (whole : Int) g
      else do
        let decimal_val ← pyIntOfDigits decimal_str
        let decimal_places := decimal_str.length
        let res1 ←
          if whole = 0 then pure "нула"
          else number_to_words_cardinal (whole : Int) n
        let decimal_words ← number_to_words_cardinal (decimal_val : Int) f
        let denom :=
          if decimal_places = 1 then (if decimal_val = 1 then "десета" else "десети")
          else if decimal_places = 2 then (if decimal_val = 1 then "стотна" else "стотни")
          else if decimal_places = 3 then (if decimal_val = 1 then "хилядна" else "хилядни")
          else ""
        pure (pyStrip (res1 ++ " цяло и " ++ decimal_words ++ " " ++ denom))

/-- `float_to_words(s, gender)` for a `str` argument. -/
def float_to_words_str (s : String) (g : Gender) : Option String :=
  float_to_words_core s g

/-! ## bg_roman.py -/

/-- Python `str.upper()` for ASCII and Cyrillic. -/
def pyUpperChar (c : Char) : Char :=
  if 'a' ≤ c && c ≤ 'z' then Char.ofNat (c.toNat - 32)
  else if 0x430 ≤ c.toNat && c.toNat ≤ 0x44F then Char.ofNat (c.toNat - 0x20)
  else c

/-- Python `str.lower()` for ASCII and Cyrillic. -/
def pyLowerChar (c : Char) : Char :=
  if 'A' ≤ c && c ≤ 'Z' then Char.ofNat (c.toNat + 32)
  else if 0x410 ≤ c.toNat && c.toNat ≤ 0x42F then Char.ofNat (c.toNat + 0x20)
  else c

def pyLower (s : String) : String := ⟨s.data.map pyLowerChar⟩

def ROMAN_VALUES : Char → Option Nat
  | 'I' => some 1 | 'V' => some 5 | 'X' => some 10 | 'L' => some 50
  | 'C' => some 100 | 'D' => some 500 | 'M' => some 1000 | _ => none

/-- `roman_to_arabic(roman)`. -/
def roman_to_arabic (roman : String) : Option Nat :=
  if roman.data = [] then none
  else
    let r := pyStripL (roman.data.map pyUpperChar)
    if ¬ r.all (fun c => (ROMAN_VALUES c).isSome) then none
    else
      let step := fun (acc : Int × Int) (c : Char) =>
        let v : Int := ((ROMAN_VALUES c).getD 0 : Nat)
        (if v < acc.2 then acc.1 - v else acc.1 + v, v)
      let res := (r.reverse.foldl step (0, 0)).1
      if res ≤ 0 then none else some res.toNat

/-! ## bg_dates.py -/

def MONTH_NAMES : Nat → Option String
  | 1 => some "януари" | 2 => some "февруари" | 3 => some "март"
  | 4 => some "април" | 5 => some "май" | 6 => some "юни" | 7 => some "юли"
  | 8 => some "август" | 9 => some "септември" | 10 => some "октомври"
  | 11 => some "ноември" | 12 => some "декември" | _ => none

/-- `normalize_year(year)` (default gender of the cardinal fallback is 'm'). -/
def normalize_year (year : Int) : Option String :=
  if year ≤ 0 then number_to_words_cardinal year m
  else number_to_words_ordinal year f

/-- `normalize_date(day, month, year, include_year_suffix)`.  For an invalid
month the source rebuilds the literal `f"{day}.{month}"` plus `f".{year}"`
only when `year` is truthy (so `year = 0` is dropped, like `None`). -/
def normalize_date (day month : Nat) (year : Option Nat)
    (include_year_suffix : Bool) : Option String :=
  if month < 1 ∨ month > 12 then
    some (natStr day ++ "." ++ natStr month ++
      (match year with
        | some y => if y ≠ 0 then "." ++ natStr y else ""
        | none => ""))
  else do
    let day_word ← number_to_words_ordinal (day : Int) m
    let month_word ← MONTH_NAMES month
    let parts := [day_word, month_word]
    let parts ←
      match year with
      | none => pure parts
      | some y => do
          let year_word ← normalize_year (y : Int)
          pure (parts ++ [year_word] ++ (if include_year_suffix then ["година"] else []))
    pure (sjoin " " parts)

/-! ## bg_time.py -/

/-- `normalize_time(hours, minutes, include_suffix)`. -/
def normalize_time (hours minutes : Nat) (include_suffix : Bool) : Option String := do
  let hours_word ← number_to_words_cardinal (hours : Int) m
  if minutes = 0 then
    pure (hours_word ++ (if include_suffix then " часа" else ""))
  else do
    let minutes_word ← number_to_words_cardinal (minutes : Int) m
    pure (hours_word ++ " и " ++ minutes_word ++ (if include_suffix then " часа" else ""))

/-! ## bg_currency.py -/

structure CurrencyInfo where
  main_singular : String
  main_plural : String
  sub_singular : String
  sub_plural : String
  main_gender : Gender
  sub_gender : Gender

def BGN_INFO : CurrencyInfo := ⟨"лев", "лева", "стотинка", "стотинки", m, f⟩

def CURRENCY_INFO : String → Option CurrencyInfo
  | "BGN" => some BGN_INFO
  | "EUR" => some ⟨"евро", "евро", "цент", "цента", n, m⟩
  | "USD" => some ⟨"долар", "долара", "цент", "цента", m, m⟩
  | "GBP" => some ⟨"лира", "лири", "пени", "пенса", f, m⟩
  | _ => none

/-- Rendering part of `normalize_currency` (after `main_amount`/`sub_amount`
have been parsed). -/
def renderCurrency (info : CurrencyInfo) (main_amount sub_amount : Nat) :
    Option String := do
  let partsM : List String ←
    if main_amount > 0 then do
      let main_words ← number_to_words_cardinal (main_amount : Int) info.main_gender
      let main_unit := if main_amount = 1 then info.main_singular else info.main_plural
      pure [main_words ++ " " ++ main_unit]
    else pure []
  let parts ←
    if sub_amount > 0 then do
      let sub_words ← number_to_words_cardinal (sub_amount : Int) info.sub_gender
      let sub_unit := if sub_amount = 1 then info.sub_singular else info.sub_plural
      pure (partsM ++ (if partsM ≠ [] then ["и"] else []) ++ [sub_words ++ " " ++ sub_unit])
    else pure partsM
  if parts = [] then pure ("нула " ++ info.main_plural)
  else pure (sjoin " " parts)

/-- `normalize_currency(amount_str, currency)`.  The `int(parts[0])` is guarded
by `try/except ValueError` (→ return the cleaned string), while
`int(sub_str)` is not (an uncaught `ValueError` = `none`). -/
def normalize_currency (amount_str : String) (currency : String) : Option String :=
  let info := (CURRENCY_INFO ⟨currency.data.map pyUpperChar⟩).getD BGN_INFO
  let a := (amount_str.data.map (fun c => if c = ',' then '.' else c)).filter (· ≠ ' ')
  if a.contains '.' then
    let (p0, p1) := splitFirst '.' a
    match (if p0 = [] then some 0 else pyIntOfDigits p0) with
    | none => some ⟨a⟩
    | some main_amount => do
        let sub_amount ← pyIntOfDigits ((p1 ++ ['0', '0']).take 2)
        renderCurrency info main_amount sub_amount
  else
    match pyIntOfDigits a with
    | none => some ⟨a⟩
    | some main_amount => renderCurrency info main_amount 0

/-! ## bg_phone.py -/

/-- `DIGIT_WORDS[c]` — indexing form (may raise `KeyError`). -/
def DIGIT_WORDS_ix : Char → Option String
  | '0' => some "нула" | '1' => some "едно" | '2' => some "две" | '3' => some "три"
  | '4' => some "четири" | '5' => some "пет" | '6' => some "шест"
  | '7' => some "седем" | '8' => some "осем" | '9' => some "девет"
  | _ => none

/-- The pairwise reading loop of `normalize_phone_number`. -/
def pairLoop : List Char → Option (List String)
  | a :: b :: t => do
      let pair_num ← pyIntOfDigits [a, b]
      let w ←
        if pair_num = 0 then pure "нула нула"
        else if pair_num < 10 then do
          let dw ← DIGIT_WORDS_ix b
          pure ("нула " ++ dw)
        else number_to_words_cardinal (pair_num : Int) m
      let rest ← pairLoop t
      pure (w :: rest)
  | [a] => do
      let dw ← DIGIT_WORDS_ix a
      pure [dw]
  | [] => pure []

/-- `normalize_phone_number(phone)`. -/
def normalize_phone_number (phone : String) : Option String :=
  let cleaned0 := pyStripL phone.data
  let (pfx, cleaned) :=
    if cleaned0.take 4 = "+359".data then
      let c := pyStripL (cleaned0.drop 4)
      ("плюс три пет девет ", if c.take 1 = ['0'] then c else '0' :: c)
    else ("", cleaned0)
  let digits_only := cleaned.filter isDigitC
  if digits_only = [] then some phone
  else do
    let head_parts : List String :=
      if pfx ≠ "" then [⟨pyStripL pfx.data⟩] else []
    let pair_parts ← pairLoop digits_only
    pure (sjoin " " (head_parts ++ pair_parts))

/-! ## CPython `float` model

`float(num_str)` followed by `f'{f:.10g}'`, as used by
`float_to_words(float(num_str))` in the percentage and generic decimal passes,
is embedded exactly: correctly rounded (round-to-nearest, ties-to-even)
conversion of the decimal literal to IEEE-754 binary64, then `%g` formatting
with 10 significant digits (correctly rounded from the exact binary value,
trailing zeros stripped, scientific notation outside `-4 ≤ exp < 10`,
`'inf'` on overflow). -/

/-- A nonnegative binary64 value `mant * 2^e` (`mant = 0` ⇒ zero), or infinity. -/
structure F64 where
  isInf : Bool
  mant : Nat
  e : Int

/-- `round(N / D)` with ties to even. -/
def roundHalfEvenDiv (N D : Nat) : Nat :=
  let q := N / D
  let r := N % D
  if 2 * r > D then q + 1
  else if 2 * r < D then q
  else if q % 2 = 1 then q + 1 else q

/-- Is `a / 10^k < 2^E` (signed `E`)? -/
def ltPow2 (a k : Nat) (E : Int) : Bool :=
  a * 2 ^ (-E).toNat < 10 ^ k * 2 ^ E.toNat

/-- Number of binary digits of `n` (`0` for `n = 0`). -/
def bitLenAux : Nat → Nat → Nat
  | 0, _ => 0
  | fuel + 1, x => if x = 0 then 0 else bitLenAux fuel (x / 2) + 1

def bitLen (x : Nat) : Nat := bitLenAux (x + 1) x

/-- Find the unique `E` with `2^(E-1) ≤ a/10^k < 2^E` (monotone search from a
bit-length estimate; the estimate is within 2 of the answer, fuel is ample). -/
def findEAux : Nat → Nat → Nat → Int → Int
  | 0, _, _, E => E
  | fuel + 1, a, k, E =>
    if ¬ ltPow2 a k E then findEAux fuel a k (E + 1)
    else if ltPow2 a k (E - 1) then findEAux fuel a k (E - 1)
    else E

def findE (a k : Nat) : Int :=
  findEAux 99 a k ((bitLen a : Int) - (bitLen (10 ^ k) : Int) + 1)

/-- Correctly rounded conversion of `a / 10^k` to binary64. -/
def decToF64 (a k : Nat) : F64 :=
  if a = 0 then ⟨false, 0, 0⟩
  else
    let E := findE a k
    let e : Int := max (E - 53) (-1074)
    let ND : Nat × Nat :=
      if e ≤ 0 then (a * 2 ^ (-e).toNat, 10 ^ k)
      else (a, 10 ^ k * 2 ^ e.toNat)
    let mant := roundHalfEvenDiv ND.1 ND.2
    let me : Nat × Int := if mant = 2 ^ 53 then (2 ^ 52, e + 1) else (mant, e)
    if me.2 > 971 then ⟨true, 0, 0⟩ else ⟨false, me.1, me.2⟩

/-- `float(s)` for the token shapes produced by the numeric regexes
(`digits`, `digits.digits`, `.digits`, `digits.`). -/
def parseDec (l : List Char) : Option (Nat × Nat) :=
  let wf := if l.contains '.' then splitFirst '.' l else (l, [])
  if wf.1 = [] ∧ wf.2 = [] then none
  else if wf.1.all isDigitC ∧ wf.2.all isDigitC then
    some (natOfDigits (wf.1 ++ wf.2), wf.2.length)
  else none

/-- Increment a digit list given least-significant first. -/
def incRev : List Char → List Char
  | [] => ['1']
  | c :: t => if c = '9' then '0' :: incRev t else Char.ofNat (c.toNat + 1) :: t

def incDigits (l : List Char) : List Char := (incRev l.reverse).reverse

/-- Round a digit string (msd first, leading digit nonzero) to 10 significant
digits, ties to even; returns the 10 digits (zero padded) and the exponent
carry (1 when `99…9` rounds up). -/
def roundSig10 (ds : List Char) : List Char × Nat :=
  if ds.length ≤ 10 then (ds ++ List.replicate (10 - ds.length) '0', 0)
  else
    let keep := ds.take 10
    let rest := ds.drop 10
    let restN := natOfDigits rest
    let halfN := 5 * 10 ^ (rest.length - 1)
    let up :=
      if restN > halfN then true
      else if restN < halfN then false
      else digitVal (keep.getLastD '0') % 2 = 1
    if ¬ up then (keep, 0)
    else
      let inc := incDigits keep
      if inc.length = 11 then (inc.take 10, 1) else (inc, 0)

/-- Fixed-point `%g` layout for decimal exponent `X`. -/
def fmtFixed (sig : List Char) (X : Int) : List Char :=
  if X ≥ 0 then
    let ip := sig.take (X.toNat + 1)
    let fp := rstripZeros (sig.drop (X.toNat + 1))
    ip ++ (if fp = [] then [] else '.' :: fp)
  else
    let fp := rstripZeros (List.replicate ((-X).toNat - 1) '0' ++ sig)
    '0' :: '.' :: fp

/-- Scientific `%g` layout (`d.ddd…e±XX`, exponent at least two digits). -/
def fmtExp (sig : List Char) (X : Int) : List Char :=
  let mrest := rstripZeros (sig.drop 1)
  let mant := sig.take 1 ++ (if mrest = [] then [] else '.' :: mrest)
  let ed := natDigits X.natAbs
  let ed := if ed.length < 2 then '0' :: ed else ed
  mant ++ 'e' :: (if X < 0 then '-' else '+') :: ed

/-- `%.10g` of the positive binary64 value `mant * 2^e`. -/
def fmt10gPos (mant : Nat) (e : Int) : List Char :=
  let Df : Nat × Nat :=
    if e ≥ 0 then (mant * 2 ^ e.toNat, 0)
    else (mant * 5 ^ (-e).toNat, (-e).toNat)
  let ds := natDigits Df.1
  let decExp : Int := (ds.length : Int) - 1 - (Df.2 : Int)
  let se := roundSig10 ds
  let X := decExp + se.2
  if -4 ≤ X ∧ X < 10 then fmtFixed se.1 X else fmtExp se.1 X

/-- `f'{float(s):.10g}'`. -/
def pyFloat10g (s : String) : Option String :=
  match parseDec s.data with
  | none => none
  | some ak =>
    let fv := decToF64 ak.1 ak.2
    if fv.isInf then some "inf"
    else if fv.mant = 0 then some "0"
    else some ⟨fmt10gPos fv.mant fv.e⟩

/-- `float_to_words(float(num_str))` — the float-argument call used by the
percentage and generic decimal passes (default gender there is `'n'` via the
caller's choice). -/
def float_to_words_floatArg (num_str : String) (g : Gender) : Option String := do
  let s ← pyFloat10g num_str
  float_to_words_core s g

/-! ## Regex machinery

Each `re.sub` of the pipeline is embedded by a position-by-position scanner.
`tryAt prev cs` attempts the pass's pattern at the current position (`prev` is
the preceding character of the *original* text, for `\b` / lookbehind);
it returns the matched characters, the replacement (`none` = an exception
escaping from the replacement function), and the rest of the input after the
match.  All patterns here match at least one character. -/

def reSub (tryAt : Option Char → List Char →
      Option (List Char × Option String × List Char)) :
    Nat → Option Char → List Char → Option (List Char)
  | 0, _, cs => some cs
  | fuel + 1, prev, cs =>
    match tryAt prev cs with
    | some (matched, some repl, rest) =>
        (repl.data ++ ·) <$> reSub tryAt fuel (matched.getLast? <|> prev) rest
    | some (_, none, _) => none
    | none =>
      match cs with
      | [] => some []
      | c :: t => (c :: ·) <$> reSub tryAt fuel (some c) t

def applySub
    (tryAt : Option Char → List Char → Option (List Char × Option String × List Char))
    (l : List Char) : Option (List Char) :=
  reSub tryAt (l.length + 1) none l

/-! ## bg_abbreviations.py -/

def COMMON_ABBREVS : List (String × String) :=
  [("т.е.", "тоест"), ("т. е.", "тоест"), ("т.н.", "така наречен"),
   ("т. н.", "така наречен"), ("т.нар.", "така наречен"), ("напр.", "например"),
   ("и т.н.", "и така нататък"), ("и т. н.", "и така нататък"), ("и др.", "и други"),
   ("вж.", "виж"), ("ср.", "сравни"), ("вкл.", "включително"), ("изд.", "издание"),
   ("стр.", "страница"), ("гл.", "глава"), ("чл.", "член"), ("ал.", "алинея"),
   ("б.р.", "бележка на редактора"), ("б. р.", "бележка на редактора"),
   ("б.а.", "бележка на автора"), ("б. а.", "бележка на автора"),
   ("пр.н.е.", "преди новата ера"), ("пр. н. е.", "преди новата ера"),
   ("сл.н.е.", "след новата ера"), ("сл. н. е.", "след новата ера"),
   ("пр.Хр.", "преди Христа"), ("сл.Хр.", "след Христа")]

def ADDRESS_ABBREVS : List (String × String) :=
  [("бул.", "булевард"), ("ул.", "улица"), ("пл.", "площад"),
   ("ж.к.", "жилищен комплекс"), ("ж. к.", "жилищен комплекс"), ("кв.", "квартал"),
   ("бл.", "блок"), ("вх.", "вход"), ("ет.", "етаж"), ("ап.", "апартамент"),
   ("п.к.", "пощенски код")]

def GEO_ABBREVS : List (String × String) :=
  [("гр.", "град"), ("с.", "село"), ("обл.", "област"), ("общ.", "община"),
   ("р-н", "район")]

def TITLE_ABBREVS : List (String × String) :=
  [("г-н", "господин"), ("г-жа", "госпожа"), ("г-ца", "госпожица"),
   ("д-р", "доктор"), ("проф.", "професор"), ("доц.", "доцент"),
   ("акад.", "академик"), ("инж.", "инженер"), ("арх.", "архитект"),
   ("адв.", "адвокат"), ("св.", "свети")]

def BUSINESS_ABBREVS : List (String × String) :=
  [("ЕООД", "еоод"), ("ООД", "оод"), ("ЕТ", "едноличен търговец"),
   ("АД", "акционерно дружество"), ("ЕАД", "еад"), ("КД", "командитно дружество"),
   ("СД", "събирателно дружество")]

def INSTITUTION_ABBREVS : List (String × String) :=
  [("НАП", "национална агенция по приходите"),
   ("НОИ", "национален осигурителен институт"),
   ("НЗОК", "национална здравноосигурителна каса"),
   ("МОН", "министерство на образованието и науката"),
   ("МВР", "министерство на вътрешните работи"),
   ("МЗ", "министерство на здравеопазването"),
   ("МФ", "министерство на финансите"),
   ("МРРБ", "министерство на регионалното развитие и благоустройството"),
   ("БНБ", "българска народна банка"), ("БНТ", "бнт"), ("БТВ", "бтв"),
   ("НС", "народно събрание"), ("ЕС", "европейски съюз"),
   ("ООН", "организация на обединените нации"), ("НАТО", "нато"),
   ("ДДС", "данък добавена стойност"), ("ДАНС", "данс"),
   ("ЕГН", "единен граждански номер"), ("БУЛСТАТ", "булстат"),
   ("ПИН", "пин"), ("ПДФ", "пдф"), ("СМС", "есемес")]

def SYMBOL_ABBREVS : List (String × String) :=
  [("№", "номер"), ("&", "и"), ("@", "кльомба")]

def MEASUREMENT_ABBREVS : List (String × String) :=
  [("км/ч", "километра в час"), ("м/с", "метра в секунда"),
   ("кв.м", "квадратни метра"), ("кв. м", "квадратни метра"),
   ("кв.м.", "квадратни метра"), ("куб.м", "кубически метра"),
   ("куб. м", "кубически метра"), ("км", "километра"), ("м", "метра"),
   ("см", "сантиметра"), ("мм", "милиметра"), ("кг", "килограма"),
   ("гр", "грама"), ("мг", "милиграма"), ("т", "тона"), ("л", "литра"),
   ("мл", "милилитра"), ("дка", "декара"), ("ха", "хектара")]

/-- Stable insertion preserving the order of equal lengths — together with
`foldl` this reproduces Python's stable `sorted(key=len, reverse=True)`. -/
def insertDescLen (x : String × String) :
    List (String × String) → List (String × String)
  | [] => [x]
  | y :: ys =>
    if x.1.length > y.1.length then x :: y :: ys else y :: insertDescLen x ys

def sortDescLen (l : List (String × String)) : List (String × String) :=
  l.foldl (fun acc x => insertDescLen x acc) []

/-- `all_abbrevs` built by successive `dict.update` (no duplicate keys occur),
then sorted by descending key length. -/
def sorted_abbrevs : List (String × String) :=
  sortDescLen (COMMON_ABBREVS ++ ADDRESS_ABBREVS ++ GEO_ABBREVS ++ TITLE_ABBREVS ++
    BUSINESS_ABBREVS ++ INSTITUTION_ABBREVS ++ SYMBOL_ABBREVS)

def sorted_measurements : List (String × String) :=
  sortDescLen MEASUREMENT_ABBREVS

/-- `re.sub(r'(?<!\w)KEY(?!\w)', full, text, flags=IGNORECASE)` for a literal key. -/
def tryAbbrev (k v : List Char) (prev : Option Char) (cs : List Char) :
    Option (List Char × Option String × List Char) :=
  if isWordO prev then none
  else
    let nk := k.length
    if (cs.take nk).map pyLowerChar = k.map pyLowerChar then
      let rest := cs.drop nk
      if isWordO rest.head? then none
      else some (cs.take nk, some ⟨v⟩, rest)
    else none

/-- `re.sub(r'(\d)\s*UNIT\b', r'\1 FULL', text)` (case sensitive). -/
def tryMeasure (u full : List Char) (_prev : Option Char) (cs : List Char) :
    Option (List Char × Option String × List Char) :=
  match cs with
  | d :: rest =>
    if isDigitC d then
      let ws := rest.takeWhile isWS
      let r2 := rest.drop ws.length
      if r2.take u.length = u then
        let rest3 := r2.drop u.length
        if isWordO rest3.head? then none
        else some (d :: (ws ++ u), some ⟨d :: ' ' :: full⟩, rest3)
      else none
    else none
  | [] => none

/-- `normalize_abbreviations(text)` — substitution replacements never raise,
so the `Option` from the driver is always `some`. -/
def normalize_abbreviations (l : List Char) : List Char :=
  let l1 := sorted_abbrevs.foldl
    (fun t kv => (applySub (tryAbbrev kv.1.data kv.2.data) t).getD t) l
  sorted_measurements.foldl
    (fun t kv => (applySub (tryMeasure kv.1.data kv.2.data) t).getD t) l1

/-! ## Pipeline passes (bg_normalizer.py) -/

/-- `(?:\s\d{3})+\b` with greedy backtracking; returns matched chars and rest
(with the trailing `\b` already verified). -/
def collapseReps : List Char → Option (List Char × List Char)
  | c :: d1 :: d2 :: d3 :: rest =>
    if isWS c ∧ isDigitC d1 ∧ isDigitC d2 ∧ isDigitC d3 then
      match collapseReps rest with
      | some (mt, r) => some (c :: d1 :: d2 :: d3 :: mt, r)
      | none =>
        if isWordO rest.head? then none
        else some ([c, d1, d2, d3], rest)
    else none
  | _ => none

/-- `_collapse_spaced_numbers`: `\b(\d{1,3})((?:\s\d{3})+)\b` →
`m.group(0).replace(' ', '')`. -/
def tryCollapse (prev : Option Char) (cs : List Char) :
    Option (List Char × Option String × List Char) :=
  if isWordO prev then none
  else
    let ds := cs.takeWhile isDigitC
    if ds = [] ∨ ds.length > 3 then none
    else
      match collapseReps (cs.drop ds.length) with
      | some (reps, rest) =>
          some (ds ++ reps, some ⟨(ds ++ reps).filter (· ≠ ' ')⟩, rest)
      | none => none

/-- Replacement function of `_normalize_percentages` (may raise through
`int()` on the `.10g` form of an overflowed float). -/
def pctRepl (g1 : List Char) : Option String :=
  let num_str := g1.map (fun c => if c = ',' then '.' else c)
  if num_str.contains '.' then do
    let s ← float_to_words_floatArg ⟨num_str⟩ n
    pure (s ++ " процента")
  else do
    let v ← pyIntOfDigits num_str
    let s ← number_to_words_cardinal (v : Int) m
    pure (s ++ " процента")

/-- `_normalize_percentages`: `\b(\d+(?:[.,]\d+)?)\s*%`. -/
def tryPct (prev : Option Char) (cs : List Char) :
    Option (List Char × Option String × List Char) :=
  if isWordO prev then none
  else
    let ds := cs.takeWhile isDigitC
    if ds = [] then none
    else
      let r1 := cs.drop ds.length
      let ext : Option (List Char × List Char) :=
        match r1 with
        | c :: r2 =>
          if c = '.' ∨ c = ',' then
            let ds2 := r2.takeWhile isDigitC
            if ds2 = [] then none else some (c :: ds2, r2.drop ds2.length)
          else none
        | [] => none
      let finish := fun (echars : List Char) (r : List Char) =>
        let ws := r.takeWhile isWS
        match r.drop ws.length with
        | '%' :: rest =>
            some (ds ++ echars ++ ws ++ ['%'], pctRepl (ds ++ echars), rest)
        | _ => none
      match ext with
      | some (echars, r2) =>
        match finish echars r2 with
        | some res => some res
        | none => finish [] r1
      | none => finish [] r1

def isDateSep (c : Char) : Bool := c = '.' || c = '/' || c = '-'

/-- Match `\d{1,n}` greedily with backtracking: candidate lengths, longest
first, that are followed by a successful continuation `q`. -/
def digitsUpTo (nmax : Nat) (cs : List Char) : List (List Char × List Char) :=
  let ds := (cs.takeWhile isDigitC).take nmax
  (List.range ds.length).map (fun i =>
    let len := ds.length - i
    (ds.take len, cs.drop len))

def firstSomeAux {α β : Type} (fn : α → Option β) : List α → Option β
  | [] => none
  | x :: t =>
    match fn x with
    | some r => some r
    | none => firstSomeAux fn t

/-- `\b(\d{1,2})[./\-](\d{1,2})[./\-](\d{4})\s*г\.?` with replacement
`normalize_date(d, m, y, include_year_suffix=True)`. -/
def tryDateFull1 (prev : Option Char) (cs : List Char) :
    Option (List Char × Option String × List Char) :=
  if isWordO prev then none
  else
    firstSomeAux (fun (dc : List Char × List Char) =>
      match dc.2 with
      | s1 :: r1 =>
        if isDateSep s1 then
          firstSomeAux (fun (mc : List Char × List Char) =>
            match mc.2 with
            | s2 :: r2 =>
              if isDateSep s2 then
                let ys := r2.takeWhile isDigitC
                if ys.length < 4 then none
                else
                  let yd := ys.take 4
                  let r3 := r2.drop 4
                  let ws := r3.takeWhile isWS
                  match r3.drop ws.length with
                  | 'г' :: r4 =>
                    let dot := if r4.take 1 = ['.'] then ['.'] else []
                    let matched := dc.1 ++ [s1] ++ mc.1 ++ [s2] ++ yd ++ ws ++ 'г' :: dot
                    some (matched,
                      normalize_date (natOfDigits dc.1) (natOfDigits mc.1)
                        (some (natOfDigits yd)) true,
                      r4.drop dot.length)
                  | _ => none
              else none
            | [] => none) (digitsUpTo 2 r1)
        else none
      | [] => none) (digitsUpTo 2 cs)

/-- `\b(\d{1,2})[./\-](\d{1,2})[./\-](\d{4})\b` with replacement
`normalize_date(d, m, y)`. -/
def tryDateFull2 (prev : Option Char) (cs : List Char) :
    Option (List Char × Option String × List Char) :=
  if isWordO prev then none
  else
    firstSomeAux (fun (dc : List Char × List Char) =>
      match dc.2 with
      | s1 :: r1 =>
        if isDateSep s1 then
          firstSomeAux (fun (mc : List Char × List Char) =>
            match mc.2 with
            | s2 :: r2 =>
              if isDateSep s2 then
                let ys := r2.takeWhile isDigitC
                if ys.length < 4 then none
                else
                  let yd := ys.take 4
                  let r3 := r2.drop 4
                  if isWordO r3.head? then none
                  else
                    some (dc.1 ++ [s1] ++ mc.1 ++ [s2] ++ yd,
                      normalize_date (natOfDigits dc.1) (natOfDigits mc.1)
                        (some (natOfDigits yd)) false,
                      r3)
              else none
            | [] => none) (digitsUpTo 2 r1)
        else none
      | [] => none) (digitsUpTo 2 cs)

/-- Replacement of the partial-date branch (day/month ranges checked). -/
def partDateRepl (dd mm : List Char) (g0 : List Char) : Option String :=
  let day := natOfDigits dd
  let month := natOfDigits mm
  if 1 ≤ day ∧ day ≤ 31 ∧ 1 ≤ month ∧ month ≤ 12 then
    normalize_date day month none false
  else some ⟨g0⟩

/-- `\b(\d{1,2})[./](\d{1,2})\b(?!\.\d)`. -/
def tryDatePart (prev : Option Char) (cs : List Char) :
    Option (List Char × Option String × List Char) :=
  if isWordO prev then none
  else
    firstSomeAux (fun (dc : List Char × List Char) =>
      match dc.2 with
      | s1 :: r1 =>
        if s1 = '.' ∨ s1 = '/' then
          firstSomeAux (fun (mc : List Char × List Char) =>
            let r2 := mc.2
            if isWordO r2.head? then none
            else
              match r2 with
              | '.' :: d :: _ => if isDigitC d then none else
                  some (dc.1 ++ s1 :: mc.1, partDateRepl dc.1 mc.1 (dc.1 ++ s1 :: mc.1), r2)
              | _ =>
                  some (dc.1 ++ s1 :: mc.1, partDateRepl dc.1 mc.1 (dc.1 ++ s1 :: mc.1), r2))
            (digitsUpTo 2 r1)
        else none
      | [] => none) (digitsUpTo 2 cs)

/-- `_normalize_dates`: the three date regexes in source order. -/
def normalizeDatesPass (l : List Char) : Option (List Char) := do
  let t1 ← applySub tryDateFull1 l
  let t2 ← applySub tryDateFull2 t1
  applySub tryDatePart t2

/-- `\b(\d{1,2}):(\d{2})\s*(?:ч\.|часа|часът)` → `normalize_time(h, m, True)`. -/
def tryTime1 (prev : Option Char) (cs : List Char) :
    Option (List Char × Option String × List Char) :=
  if isWordO prev then none
  else
    firstSomeAux (fun (hc : List Char × List Char) =>
      match hc.2 with
      | ':' :: r1 =>
        let ms := r1.takeWhile isDigitC
        if ms.length < 2 then none
        else
          let md := ms.take 2
          let r2 := r1.drop 2
          let ws := r2.takeWhile isWS
          let r3 := r2.drop ws.length
          let suf : Option (List Char × List Char) :=
            if r3.take 2 = ['ч', '.'] then some (['ч', '.'], r3.drop 2)
            else if r3.take 4 = "часа".data then some ("часа".data, r3.drop 4)
            else if r3.take 5 = "часът".data then some ("часът".data, r3.drop 5)
            else none
          match suf with
          | some (sc, r4) =>
              some (hc.1 ++ ':' :: md ++ ws ++ sc,
                normalize_time (natOfDigits hc.1) (natOfDigits md) true, r4)
          | none => none
      | _ => none) (digitsUpTo 2 cs)

/-- `\b(\d{1,2}):(\d{2})\b` → `normalize_time(h, m)`. -/
def tryTime2 (prev : Option Char) (cs : List Char) :
    Option (List Char × Option String × List Char) :=
  if isWordO prev then none
  else
    firstSomeAux (fun (hc : List Char × List Char) =>
      match hc.2 with
      | ':' :: r1 =>
        let ms := r1.takeWhile isDigitC
        if ms.length < 2 then none
        else
          let md := ms.take 2
          let r2 := r1.drop 2
          if isWordO r2.head? then none
          else
            some (hc.1 ++ ':' :: md,
              normalize_time (natOfDigits hc.1) (natOfDigits md) false, r2)
      | _ => none) (digitsUpTo 2 cs)

/-- `_normalize_times`. -/
def normalizeTimesPass (l : List Char) : Option (List Char) := do
  let t1 ← applySub tryTime1 l
  applySub tryTime2 t1

/-- Candidates for `(\d[\d\s]*(?:[.,]\d{1,2})?)` in greedy order.  The
character class can never profitably backtrack (a shorter class run leaves a
digit or whitespace where `[.,]` or the unit is required), so only the
fraction options branch. -/
def amountCands (cs : List Char) : List (List Char × List Char) :=
  match cs with
  | c :: rest =>
    if isDigitC c then
      let cls := rest.takeWhile (fun x => isDigitC x || isWS x)
      let base := c :: cls
      let r1 := rest.drop cls.length
      match r1 with
      | s :: r2 =>
        if s = '.' ∨ s = ',' then
          let fd := (r2.takeWhile isDigitC).take 2
          if fd.length = 2 then
            [(base ++ s :: fd, r2.drop 2), (base ++ s :: fd.take 1, r2.drop 1), (base, r1)]
          else if fd.length = 1 then
            [(base ++ s :: fd, r2.drop 1), (base, r1)]
          else [(base, r1)]
        else [(base, r1)]
      | [] => [(base, r1)]
    else []
  | [] => []

/-- Ordered unit alternation with a trailing `\b`. -/
def matchUnit : List (List Char) → List Char → Option (List Char × List Char)
  | [], _ => none
  | u :: us, r2 =>
    if r2.take u.length = u ∧ boundaryB u.getLast? (r2.drop u.length).head? then
      some (u, r2.drop u.length)
    else matchUnit us r2

/-- `\b(\d[\d\s]*(?:[.,]\d{1,2})?)\s*(?:UNITS)\b` with replacement
`normalize_currency(m.group(1).replace(' ', ''), CODE)`. -/
def tryCurrencyWord (units : List (List Char)) (code : String)
    (prev : Option Char) (cs : List Char) :
    Option (List Char × Option String × List Char) :=
  if isWordO prev then none
  else
    firstSomeAux (fun (gr : List Char × List Char) =>
      let ws := gr.2.takeWhile isWS
      let r2 := gr.2.drop ws.length
      match matchUnit units r2 with
      | some (u, rest) =>
          some (gr.1 ++ ws ++ u,
            normalize_currency ⟨gr.1.filter (· ≠ ' ')⟩ code, rest)
      | none => none) (amountCands cs)

/-- `SYM\s*(\d[\d\s]*(?:[.,]\d{1,2})?)\s*` with replacement
`normalize_currency(...) + ' '`. -/
def tryCurrencySym (sym : Char) (code : String)
    (_prev : Option Char) (cs : List Char) :
    Option (List Char × Option String × List Char) :=
  match cs with
  | c :: r =>
    if c = sym then
      let ws := r.takeWhile isWS
      firstSomeAux (fun (gr : List Char × List Char) =>
        let ws2 := gr.2.takeWhile isWS
        some (c :: ws ++ gr.1 ++ ws2,
          (normalize_currency ⟨gr.1.filter (· ≠ ' ')⟩ code).map (· ++ " "),
          gr.2.drop ws2.length)) (amountCands (r.drop ws.length))
    else none
  | [] => none

/-- `_normalize_currency`: the five currency regexes in source order. -/
def normalizeCurrencyPass (l : List Char) : Option (List Char) := do
  let t1 ← applySub (tryCurrencyWord
    [['л', 'в', '.'], ['л', 'в'], "лева".data, "BGN".data] "BGN") l
  let t2 ← applySub (tryCurrencySym '€' "EUR") t1
  let t3 ← applySub (tryCurrencyWord ["EUR".data, "евро".data] "EUR") t2
  let t4 ← applySub (tryCurrencySym '$' "USD") t3
  applySub (tryCurrencyWord ["USD".data, "долара".data, "долар".data] "USD") t4

def isPhoneClass (c : Char) : Bool := isDigitC c || isWS c || c = '-' || c = '/'

/-- `[\d\s\-\/]{6,12}\d`, greedy on the counted class. -/
def phoneTail (cs : List Char) : Option (List Char × List Char) :=
  let cls := cs.takeWhile isPhoneClass
  firstSomeAux (fun k =>
    if k ≤ cls.length then
      match cs.drop k with
      | d :: rest => if isDigitC d then some (cs.take (k + 1), rest) else none
      | [] => none
    else none) [12, 11, 10, 9, 8, 7, 6]

/-- `_normalize_phones`: `(?:\+359[\s\-]?|0)[\d\s\-\/]{6,12}\d` with
replacement `normalize_phone_number(m.group(0))`. -/
def tryPhone (_prev : Option Char) (cs : List Char) :
    Option (List Char × Option String × List Char) :=
  if cs.take 4 = "+359".data then
    let r := cs.drop 4
    let sepOpts : List (List Char × List Char) :=
      match r with
      | c :: r2 =>
        if isWS c ∨ c = '-' then [("+359".data ++ [c], r2), ("+359".data, r)]
        else [("+359".data, r)]
      | [] => [("+359".data, r)]
    firstSomeAux (fun (pre : List Char × List Char) =>
      match phoneTail pre.2 with
      | some (tl, rest) =>
          some (pre.1 ++ tl, normalize_phone_number ⟨pre.1 ++ tl⟩, rest)
      | none => none) sepOpts
  else
    match cs with
    | '0' :: r =>
      match phoneTail r with
      | some (tl, rest) => some ('0' :: tl, normalize_phone_number ⟨'0' :: tl⟩, rest)
      | none => none
    | _ => none

def ROMAN_CONTEXTS : List String := ["век", "глава", "том", "книга", "част", "клас", "степен"]

def FEM_CONTEXTS : List String := ["глава", "книга", "част", "степен"]

/-- Case-insensitive literal prefix test. -/
def matchCI (lit : List Char) (cs : List Char) : Bool :=
  (cs.take lit.length).map pyLowerChar = lit.map pyLowerChar

/-- Candidates for `((?:X{0,3})(?:IX|IV|V?I{0,3}))` in backtracking order
(the empty match comes last). -/
def romanGroup2Cands (cs : List Char) : List (List Char × List Char) :=
  let xs := (cs.takeWhile (fun c => pyLowerChar c = 'x')).take 3
  ((List.range (xs.length + 1)).map (fun i => xs.length - i)).flatMap (fun k =>
    let pre := xs.take k
    let r := cs.drop k
    let iCands := fun (base : List Char) (r0 : List Char) =>
      let is0 := (r0.takeWhile (fun c => pyLowerChar c = 'i')).take 3
      ((List.range (is0.length + 1)).map (fun i => is0.length - i)).map (fun j =>
        (base ++ is0.take j, r0.drop j))
    let tailCands :=
      (if matchCI ['i', 'x'] r ∧ r.length ≥ 2 then [(r.take 2, r.drop 2)] else []) ++
      (if matchCI ['i', 'v'] r ∧ r.length ≥ 2 then [(r.take 2, r.drop 2)] else []) ++
      (match r with
       | v :: r2 => if pyLowerChar v = 'v' then iCands [v] r2 else iCands [] r
       | [] => iCands [] r)
    tailCands.map (fun tc => (pre ++ tc.1, tc.2)))

/-- `roman_repl`. -/
def romanRepl (context roman g0 : List Char) : Option String :=
  if roman = [] then some ⟨g0⟩
  else
    match roman_to_arabic ⟨roman⟩ with
    | none => some ⟨g0⟩
    | some arabic =>
      let gender := if FEM_CONTEXTS.contains (pyLower ⟨context⟩) then f else m
      do
        let ow ← number_to_words_ordinal (arabic : Int) gender
        pure (⟨context⟩ ++ " " ++ ow)

/-- `_normalize_roman_numerals`:
`\b(век|глава|том|книга|част|клас|степен)\s+((?:X{0,3})(?:IX|IV|V?I{0,3}))\b`,
IGNORECASE.  The second standalone pattern in the source is defined but never
applied (designed no-op). -/
def tryRoman (prev : Option Char) (cs : List Char) :
    Option (List Char × Option String × List Char) :=
  if isWordO prev then none
  else
    firstSomeAux (fun (ctxLit : String) =>
      if matchCI ctxLit.data cs then
        let ctx := cs.take ctxLit.length
        let r := cs.drop ctxLit.length
        let ws := r.takeWhile isWS
        if ws = [] then none
        else
          let r2 := r.drop ws.length
          firstSomeAux (fun (rc : List Char × List Char) =>
            let whole := ctx ++ ws ++ rc.1
            if boundaryB whole.getLast? rc.2.head? then
              some (whole, romanRepl ctx rc.1 whole, rc.2)
            else none) (romanGroup2Cands r2)
      else none) ROMAN_CONTEXTS

/-- `_normalize_symbols`: `text.replace('№', 'номер ').replace('&', ' и ')`. -/
def symbolsPass (l : List Char) : List Char :=
  let l1 := (l.map (fun c => if c = '№' then "номер ".data else [c])).flatten
  ((l1.map (fun c => if c = '&' then " и ".data else [c])).flatten)

def ORD_SUFFIXES : List String :=
  ["ви", "ри", "ти", "ми", "ва", "ра", "та", "на", "во", "ро", "то", "но"]

/-- Replacement of `_normalize_ordinals` (gender from the suffix). -/
def ordRepl (ds sfx : List Char) : Option String :=
  let s : String := ⟨sfx⟩
  let gender :=
    if ["ва", "ра", "та", "на"].contains s then f
    else if ["во", "ро", "то", "но"].contains s then n
    else m
  number_to_words_ordinal (natOfDigits ds : Int) gender

/-- `_normalize_ordinals`:
`\b(\d+)\s*-?\s*(ви|ри|ти|ми|ва|ра|та|на|во|ро|то|но)\b`. -/
def tryOrdinal (prev : Option Char) (cs : List Char) :
    Option (List Char × Option String × List Char) :=
  if isWordO prev then none
  else
    let ds := cs.takeWhile isDigitC
    if ds = [] then none
    else
      let r1 := cs.drop ds.length
      let ws1 := r1.takeWhile isWS
      let r2 := r1.drop ws1.length
      let midOpts : List (List Char × List Char) :=
        match r2 with
        | '-' :: r3 =>
          let ws2 := r3.takeWhile isWS
          [(ws1 ++ '-' :: ws2, r3.drop ws2.length), (ws1, r2)]
        | _ => [(ws1, r2)]
      firstSomeAux (fun (mid : List Char × List Char) =>
        firstSomeAux (fun (sfx : String) =>
          if mid.2.take 2 = sfx.data then
            let rest := mid.2.drop 2
            if isWordO rest.head? then none
            else some (ds ++ mid.1 ++ sfx.data, ordRepl ds sfx.data, rest)
          else none) ORD_SUFFIXES) midOpts

/-- `_normalize_standalone_years`: `\b(\d{4})\s*(г\.|година|години)`. -/
def tryYear (prev : Option Char) (cs : List Char) :
    Option (List Char × Option String × List Char) :=
  if isWordO prev then none
  else
    let ds := cs.takeWhile isDigitC
    if ds.length ≠ 4 then none
    else
      let r1 := cs.drop 4
      let ws := r1.takeWhile isWS
      let r2 := r1.drop ws.length
      let suf : Option (List Char × List Char) :=
        if r2.take 2 = ['г', '.'] then some (['г', '.'], r2.drop 2)
        else if r2.take 6 = "година".data then some ("година".data, r2.drop 6)
        else if r2.take 6 = "години".data then some ("години".data, r2.drop 6)
        else none
      match suf with
      | some (sc, rest) =>
        let year := natOfDigits ds
        let repl : Option String :=
          if 1000 ≤ year ∧ year ≤ 2100 then
            (normalize_year (year : Int)).map (· ++ " година")
          else some ⟨ds ++ ws ++ sc⟩
        some (ds ++ ws ++ sc, repl, rest)
      | none => none

/-- Replacement of the generic decimal branch: `float_to_words(float(num_str))`
inside `try/except` (the fallback returns `m.group(0)`), hence total. -/
def decimalRepl (w fr g0 : List Char) : Option String :=
  some (match float_to_words_floatArg ⟨w ++ '.' :: fr⟩ n with
        | some s => s
        | none => ⟨g0⟩)

/-- `\b(\d+)[.,](\d+)\b` of `_normalize_cardinal_numbers`. -/
def tryDecimal (prev : Option Char) (cs : List Char) :
    Option (List Char × Option String × List Char) :=
  if isWordO prev then none
  else
    let w := cs.takeWhile isDigitC
    if w = [] then none
    else
      match cs.drop w.length with
      | s :: r1 =>
        if s = '.' ∨ s = ',' then
          let fr := r1.takeWhile isDigitC
          if fr = [] then none
          else
            let rest := r1.drop fr.length
            if isWordO rest.head? then none
            else some (w ++ s :: fr, decimalRepl w fr (w ++ s :: fr), rest)
        else none
      | [] => none

/-- Replacement of the generic integer branch (`try/except`, skip above the
ceiling), hence total. -/
def intRepl (ds : List Char) : Option String :=
  let num := natOfDigits ds
  if num > 999999999999 then some ⟨ds⟩
  else
    some (match number_to_words_cardinal (num : Int) m with
          | some s => s
          | none => ⟨ds⟩)

/-- `\b(\d+)\b` of `_normalize_cardinal_numbers`. -/
def tryInt (prev : Option Char) (cs : List Char) :
    Option (List Char × Option String × List Char) :=
  if isWordO prev then none
  else
    let ds := cs.takeWhile isDigitC
    if ds = [] then none
    else
      let rest := cs.drop ds.length
      if isWordO rest.head? then none
      else some (ds, intRepl ds, rest)

/-- `_normalize_cardinal_numbers`. -/
def normalizeCardinalPass (l : List Char) : Option (List Char) := do
  let t1 ← applySub tryDecimal l
  applySub tryInt t1

/-- `re.sub(r'\s+', ' ', text)` — collapse whitespace runs to single spaces. -/
def wsCollapseAux : Bool → List Char → List Char
  | _, [] => []
  | inWS, c :: t =>
    if isWS c then
      if inWS then wsCollapseAux true t else ' ' :: wsCollapseAux true t
    else c :: wsCollapseAux false t

/-- `BulgarianTextNormalizer(expand_abbrevs).normalize(text)`; `none` models an
exception escaping the call. -/
def normalize (expand_abbrevs : Bool) (text : String) : Option String :=
  if text.data = [] ∨ pyStripL text.data = [] then some text
  else do
    let t1 := if expand_abbrevs then normalize_abbreviations text.data else text.data
    let t2 ← applySub tryCollapse t1
    let t3 ← applySub tryPct t2
    let t4 ← normalizeDatesPass t3
    let t5 ← normalizeTimesPass t4
    let t6 ← normalizeCurrencyPass t5
    let t7 ← applySub tryPhone t6
    let t8 ← applySub tryRoman t7
    let t9 := symbolsPass t8
    let t10 ← applySub tryOrdinal t9
    let t11 ← applySub tryYear t10
    let t12 ← normalizeCardinalPass t11
    pure ⟨pyStripL (wsCollapseAux false t12)⟩

/-! ## Predicates and reference definitions used by the claims -/

/-- Does `pat` occur as a contiguous subsequence? -/
def containsSeq (pat : List Char) : List Char → Bool
  | [] => pat.isEmpty
  | l@(_ :: t) => decide (l.take pat.length = pat) || containsSeq pat t

/-- No two consecutive whitespace characters. -/
def noDoubleWS : List Char → Bool
  | a :: b :: t => !(isWS a && isWS b) && noDoubleWS (b :: t)
  | _ => true

def isWSO : Option Char → Bool
  | none => false
  | some c => isWS c

/-- A well-spaced token: nonempty, no doubled whitespace, and no whitespace at
either edge (closed under joining with single spaces). -/
def goodL (l : List Char) : Bool :=
  !l.isEmpty && noDoubleWS l && !isWSO l.head? && !isWSO l.getLast?

/-- Reference rendering following the spec's words for currency amounts:
split the amount digit string on the decimal separator, `main` is the whole
digit string's value, `sub` is the value of the first two fractional digits
right-padded with zeros, rendered with the currency's word tables.  (The
rendering stage is shared with the embedding; the claim is about the parsing
route.) -/
def specCurrencySplitRender (w fr : List Char) (code : String) : Option String :=
  let info := (CURRENCY_INFO ⟨code.data.map pyUpperChar⟩).getD BGN_INFO
  renderCurrency info (natOfDigits w) (natOfDigits ((fr ++ ['0', '0']).take 2))

/-- Totality-and-shape check for `_cardinal_under_1000` on its 0-999 domain,
for all three genders (decided once over the whole range). -/
def u1000Check (k : Nat) : Bool :=
  [Gender.m, Gender.f, Gender.n].all (fun g =>
    match cardinal_under_1000 k g with
    | none => false
    | some s => k == 0 || goodL s.data)

/-- The national digit sequence that `normalize_phone_number` reads pairwise
for a `+359` input `"+359" ++ r` (mirrors the source lines: strip, drop the
country code, strip, ensure a leading `'0'`, keep digits). -/
def nationalDigits (r : String) : List Char :=
  let c0 := pyStripL ("+359".data ++ r.data)
  let c := pyStripL (c0.drop 4)
  let c2 := if c.take 1 = ['0'] then c else '0' :: c
  c2.filter isDigitC

end BG

/-! ## Claim theorems -/

open BG BG.Gender

/-- Claim C1: the spec says no pass may throw, but the ordinal-suffix pass is
not total: the pattern matches `"1000000-ви"`, and
`number_to_words_ordinal(1000000)` reaches `_cardinal_under_1000(1000, 'f')`,
whose `HUNDREDS[10]` indexing raises `KeyError` (embedded as `none`), so
`normalize` on `"1000000-ви"` raises instead of returning a string. -/
theorem c1_ordinal_pass_raises :
    cardinal_under_1000 1000 f = none ∧
    number_to_words_ordinal 1000000 m = none ∧
    normalize true "1000000-ви" = none :=
  ⟨rfl, rfl, rfl⟩

/-- Claim C2 (counterexample): `normalize("35.13.2024")` does not leave the
literal unchanged — the date pass reproduces it, but the generic decimal and
integer passes then rewrite the digits. -/
theorem c2_invalid_date_rewritten :
    normalize true "35.13.2024" =
      some "тридесет и пет цяло и тринадесет стотни.две хиляди и двадесет и четири" ∧
    normalize true "35.13.2024" ≠ some "35.13.2024" :=
  ⟨rfl, by decide⟩

/-- Claim C2 (amended): only the month is range-checked, and only the date
pass itself leaves the invalid-month substring unchanged: the date pass maps
`"35.13.2024"` to itself (`normalize_date` rebuilds the literal for month 13),
while a day outside [1,31] with a valid month is rendered as words
(`normalize("0.5.2024")` renders day 0). -/
theorem c2_amended_date_pass_month_check :
    normalizeDatesPass "35.13.2024".data = some "35.13.2024".data ∧
    normalize_date 35 13 (some 2024) false = some "35.13.2024" ∧
    normalize true "0.5.2024" = some "нула май две хиляди двадесет и четвърта" :=
  ⟨rfl, rfl, rfl⟩

/-- Claim C3: `"15.5%"` is normalized by the percentage pass (which runs
before the date passes) to the decimal reading of `"15.5"` plus the fixed
percent word; the result equals `decimal("15.5", feminine) + " процента"`
(gender does not affect the decimal branch) and contains no partial-date
reading (`normalize_date(15, 5)` = `"петнадесети май"` does not occur). -/
theorem c3_percentage_before_dates :
    normalize true "15.5%" = some "петнадесет цяло и пет десети процента" ∧
    (float_to_words_str "15.5" f).map (· ++ " процента") =
      some "петнадесет цяло и пет десети процента" ∧
    normalize_date 15 5 none false = some "петнадесети май" ∧
    containsSeq "петнадесети май".data "петнадесет цяло и пет десети процента".data = false :=
  ⟨rfl, rfl, rfl, by decide⟩

/-- Claim C4 (failing input): the Roman pass of `bg_normalizer.py` requires
the context noun *before* the numeral and its numeral regex
`(?:X{0,3})(?:IX|IV|V?I{0,3})` stops at 39, so `normalize("XL глава")` (and
even `"глава XL"`) is left unchanged — although `roman_to_arabic` itself does
decode `"XL"` to 40 and the expected feminine ordinal-tens word for 40 is in
the tables.  This contradicts the spec's §8 example and the repository's own
`test_normalizer.py` expectation `"четиридесета глава"`. -/
theorem c4_roman_xl_not_decoded :
    normalize true "XL глава" = some "XL глава" ∧
    normalize true "глава XL" = some "глава XL" ∧
    roman_to_arabic "XL" = some 40 ∧
    ORDINAL_TENS_get f 4 = "четиридесета" :=
  ⟨rfl, rfl, rfl, rfl⟩

/-- Claim C5 (counterexample): the generic decimal pass and the percentage
pass convert through a binary floating-point intermediate
(`float(num_str)` then `%.10g`), so on `"1.00000000001"` they render `"едно"`
(the round-trip collapses the value to `"1"`), while the reference that splits
the digit string on the separator (`decimal()` applied to the string) renders
`"едно цяло и една"`. -/
theorem c5_float_intermediate_diverges :
    normalizeCardinalPass "1.00000000001".data = some "едно".data ∧
    pctRepl "1.00000000001".data = some "едно процента" ∧
    float_to_words_str "1.00000000001" n = some "едно цяло и една" ∧
    ("едно" : String) ≠ "едно цяло и една" :=
  ⟨rfl, rfl, rfl, by decide⟩

/-- Claim C8: BGN boundary amounts: `"0.01"` omits the main clause and uses
the singular sub-unit, `"1"` uses the singular main unit, `"2"` the plural,
and a zero amount (with or without a zero fraction) renders the fixed
zero-plus-plural phrase `"нула лева"`. -/
theorem c8_currency_boundary_forms :
    normalize_currency "0.01" "BGN" = some "една стотинка" ∧
    normalize_currency "1" "BGN" = some "един лев" ∧
    normalize_currency "2" "BGN" = some "два лева" ∧
    normalize_currency "0" "BGN" = some "нула лева" ∧
    normalize_currency "0.00" "BGN" = some "нула лева" :=
  ⟨rfl, rfl, rfl, rfl, rfl⟩

/-! ### Currency parsing lemmas (shared by C5 and C9) -/

lemma digit_facts {c : Char} (h : isDigitC c = true) : c ≠ ',' ∧ c ≠ ' ' ∧ c ≠ '.' := by
  refine ⟨?_, ?_, ?_⟩ <;> rintro rfl <;> exact absurd h (by decide)

lemma all_digits_facts {l : List Char} (h : l.all isDigitC = true) :
    ∀ c ∈ l, c ≠ ',' ∧ c ≠ ' ' := by
  intro c hc
  have hd := List.all_eq_true.mp h c hc
  exact ⟨(digit_facts hd).1, (digit_facts hd).2.1⟩

lemma mapReplaceFilter_id (l : List Char)
    (h : ∀ c ∈ l, c ≠ ',' ∧ c ≠ ' ') :
    (l.map (fun c => if c = ',' then '.' else c)).filter (· ≠ ' ') = l := by
  induction l with
  | nil => rfl
  | cons a t ih =>
    obtain ⟨h1, h2⟩ := h a (List.mem_cons_self a t)
    simp only [List.map_cons, h1, if_neg h1, List.filter_cons, h2,
      decide_eq_true_eq, ite_true]
    rw [ih (fun c hc => h c (List.mem_cons_of_mem a hc))]
    simp [h2]

lemma dot_not_mem_digits {l : List Char} (h : l.all isDigitC = true) : '.' ∉ l := by
  intro hm
  exact absurd (List.all_eq_true.mp h _ hm) (by decide)

lemma splitFirst_append (w fr : List Char) (hw : '.' ∉ w) :
    splitFirst '.' (w ++ '.' :: fr) = (w, fr) := by
  induction w with
  | nil => simp [splitFirst]
  | cons a t ih =>
    have ha : ¬ (a = '.') := fun h => hw (h ▸ List.mem_cons_self a t)
    have iht := ih (fun h => hw (List.mem_cons_of_mem a h))
    simp [splitFirst, ha, iht]

lemma contains_dot_append (w fr : List Char) :
    (w ++ '.' :: fr).contains '.' = true := by
  induction w with
  | nil => simp [List.contains_cons]
  | cons a t ih => simp [List.contains_cons, ih]

lemma pyInt_digits {l : List Char} (h : l.all isDigitC = true) (hne : l ≠ []) :
    pyIntOfDigits l = some (natOfDigits l) := by
  simp [pyIntOfDigits, h, hne]

lemma pad2_digits {fr : List Char} (hf : fr.all isDigitC = true) :
    ((fr ++ ['0', '0']).take 2).all isDigitC = true ∧ (fr ++ ['0', '0']).take 2 ≠ [] := by
  constructor
  · refine List.all_eq_true.mpr (fun c hc => ?_)
    have hmem : c ∈ fr ++ ['0', '0'] := List.take_subset 2 _ hc
    rcases List.mem_append.mp hmem with h1 | h2
    · exact List.all_eq_true.mp hf c h1
    · have hc0 : c = '0' := by simpa using h2
      subst hc0
      decide
  · have hlen : ((fr ++ ['0', '0']).take 2).length = 2 := by
      simp [List.length_take]
    intro hnil
    rw [hnil] at hlen
    simp at hlen

/-- The amount-string route of `normalize_currency` coincides with the
string-split reference for digit-string inputs. -/
lemma currency_split (w fr : List Char) (code : String)
    (hw : w.all isDigitC = true) (hf : fr.all isDigitC = true) :
    normalize_currency ⟨w ++ '.' :: fr⟩ code = specCurrencySplitRender w fr code := by
  have hcl : (((w ++ '.' :: fr)).map (fun c => if c = ',' then '.' else c)).filter (· ≠ ' ')
      = w ++ '.' :: fr := by
    apply mapReplaceFilter_id
    intro c hc
    rcases List.mem_append.mp hc with h1 | h2
    · exact all_digits_facts hw c h1
    · rcases List.mem_cons.mp h2 with rfl | h3
      · exact ⟨by decide, by decide⟩
      · exact all_digits_facts hf c h3
  have hsp := splitFirst_append w fr (dot_not_mem_digits hw)
  have hpad := pad2_digits hf
  have hsub := pyInt_digits hpad.1 hpad.2
  simp only [normalize_currency, specCurrencySplitRender, String.data]
  rw [hcl, contains_dot_append, if_pos rfl, hsp]
  by_cases hw0 : w = []
  · subst hw0
    simp [hsub, natOfDigits]
  · rw [if_neg hw0, pyInt_digits hw hw0]
    simp [hsub]

/-- Claim C5 (amended part): the currency pass's parsing refines the spec's
string-split reference — for every digit-string amount `w.fr` the rendering
equals the reference that splits the digit string on the separator. -/
theorem c5_amended_currency_string_split :
    (∀ (w fr : List Char) (code : String),
        w.all isDigitC = true → fr.all isDigitC = true →
        normalize_currency ⟨w ++ '.' :: fr⟩ code = specCurrencySplitRender w fr code) ∧
    normalize_currency "99.99" "BGN" = specCurrencySplitRender "99".data "99".data "BGN" :=
  ⟨fun w fr code hw hf => currency_split w fr code hw hf, rfl⟩

/-- Witness for the amended C5 theorem at a concrete input. -/
theorem c5_amended_witness :
    normalize_currency ⟨"0".data ++ '.' :: "01".data⟩ "USD" =
      specCurrencySplitRender "0".data "01".data "USD" :=
  c5_amended_currency_string_split.1 "0".data "01".data "USD" (by decide) (by decide)

/-- Claim C9: the sub-unit value comes from exactly the first two fractional
digits, right-padded with zeros and truncated without rounding: one
fractional digit `d` gives `10·d` sub-units, fractional digits beyond the
second are discarded, `"1.5"` reads as 1 lev 50 stotinki and `"2.999"` as
2 leva 99 stotinki. -/
theorem c9_subunit_pad_truncate :
    (∀ (w : List Char) (d : Char) (code : String),
        w.all isDigitC = true → isDigitC d = true →
        normalize_currency ⟨w ++ '.' :: [d]⟩ code =
          renderCurrency ((CURRENCY_INFO ⟨code.data.map pyUpperChar⟩).getD BGN_INFO)
            (natOfDigits w) (10 * digitVal d)) ∧
    (∀ (w f2 g : List Char) (code : String),
        w.all isDigitC = true → f2.all isDigitC = true → g.all isDigitC = true →
        f2.length = 2 →
        normalize_currency ⟨w ++ '.' :: (f2 ++ g)⟩ code =
          normalize_currency ⟨w ++ '.' :: f2⟩ code) ∧
    normalize_currency "1.5" "BGN" = some "един лев и петдесет стотинки" ∧
    normalize_currency "2.999" "BGN" = some "два лева и деветдесет и девет стотинки" := by
  refine ⟨?_, ?_, rfl, rfl⟩
  · intro w d code hw hd
    rw [currency_split w [d] code hw (by simp [hd])]
    unfold specCurrencySplitRender
    have ht : (([d] ++ ['0', '0']).take 2) = [d, '0'] := rfl
    rw [ht]
    have hv : natOfDigits [d, '0'] = 10 * digitVal d := by
      simp only [natOfDigits, List.foldl]
      have : digitVal '0' = 0 := rfl
      rw [this]
      omega
    rw [hv]
  · intro w f2 g code hw hf2 hg h2
    rw [currency_split _ _ _ hw (by simp only [List.all_append, hf2, hg, Bool.and_self]),
      currency_split _ _ _ hw hf2]
    unfold specCurrencySplitRender
    have hx : ((f2 ++ g) ++ ['0', '0']).take 2 = f2 := by
      rw [List.append_assoc, List.take_left' h2]
    have hy : (f2 ++ ['0', '0']).take 2 = f2 := List.take_left' h2
    rw [hx, hy]

/-- Witness for the C9 theorem at concrete inputs. -/
theorem c9_witness :
    normalize_currency ⟨"1".data ++ '.' :: ['5']⟩ "BGN" =
      renderCurrency ((CURRENCY_INFO ⟨"BGN".data.map pyUpperChar⟩).getD BGN_INFO)
        (natOfDigits "1".data) (10 * digitVal '5') :=
  c9_subunit_pad_truncate.1 "1".data '5' "BGN" (by decide) (by decide)

/-! ### Phone-number lemmas (C10) -/

lemma pyRStrip_prefix359 (l : List Char) :
    pyRStrip ("+359".data ++ l) = "+359".data ++ pyRStrip l := by
  unfold pyRStrip
  rw [List.reverse_append, List.dropWhile_append]
  by_cases h : (l.reverse.dropWhile isWS).isEmpty
  · rw [if_pos h]
    have h0 : l.reverse.dropWhile isWS = [] := by simpa using h
    rw [h0]
    rfl
  · rw [if_neg h, List.reverse_append]
    rfl

lemma strip359 (r : List Char) :
    pyStripL ("+359".data ++ r) = "+359".data ++ pyRStrip r := by
  unfold pyStripL
  have h1 : pyLStrip ("+359".data ++ r) = "+359".data ++ r := rfl
  rw [h1, pyRStrip_prefix359]

lemma nationalDigits_eq (rl : List Char) :
    nationalDigits ⟨rl⟩ =
      (if (pyStripL (pyRStrip rl)).take 1 = ['0'] then pyStripL (pyRStrip rl)
       else '0' :: pyStripL (pyRStrip rl)).filter isDigitC := by
  simp only [nationalDigits]
  rw [strip359]
  have hdrop : List.drop 4 ("+359".data ++ pyRStrip rl) = pyRStrip rl := rfl
  rw [hdrop]

lemma nationalDigits_cons (rl : List Char) :
    ∃ X, nationalDigits ⟨rl⟩ = '0' :: X := by
  rw [nationalDigits_eq]
  by_cases h : (pyStripL (pyRStrip rl)).take 1 = ['0']
  · rw [if_pos h]
    rcases hC : pyStripL (pyRStrip rl) with _ | ⟨a, t⟩
    · rw [hC] at h
      simp at h
    · rw [hC] at h
      have ha : a = '0' := by simpa using h
      subst ha
      exact ⟨t.filter isDigitC, rfl⟩
  · rw [if_neg h]
    exact ⟨(pyStripL (pyRStrip rl)).filter isDigitC, rfl⟩

/-- Claim C10: for every `+359` input the phone reader emits the fixed prefix
phrase and reads the national digits pairwise, where the national digit
string always starts with `'0'` (a zero is prepended when the rest does not
already start with one); concretely `"+359 888 123 456"` is read as the
prefix phrase followed by the pairs of `"0888123456"`. -/
theorem c10_phone_prefix_359 :
    (∀ r : String,
        normalize_phone_number ("+359" ++ r) =
          (pairLoop (nationalDigits r)).map
            (fun ps => sjoin " " ("плюс три пет девет" :: ps)) ∧
        (nationalDigits r).head? = some '0') ∧
    normalize_phone_number "+359 888 123 456" =
      some "плюс три пет девет нула осем осемдесет и осем дванадесет тридесет и четири петдесет и шест" := by
  refine ⟨fun r => ?_, rfl⟩
  obtain ⟨rl⟩ := r
  obtain ⟨X, hX⟩ := nationalDigits_cons rl
  refine ⟨?_, by rw [hX]; rfl⟩
  have hdata : (("+359" : String) ++ ⟨rl⟩).data = "+359".data ++ rl := rfl
  have htake : ("+359".data ++ pyRStrip rl).take 4 = "+359".data := rfl
  simp only [normalize_phone_number, hdata]
  rw [strip359]
  rw [htake, if_pos rfl]
  dsimp only
  have hdrop : List.drop 4 ("+359".data ++ pyRStrip rl) = pyRStrip rl := rfl
  rw [hdrop]
  rw [← nationalDigits_eq, hX]
  rw [if_neg (List.cons_ne_nil '0' X)]
  have hpfx : (("плюс три пет девет " : String) ≠ "") := by decide
  rw [if_pos hpfx]
  have hstr : (⟨pyStripL ("плюс три пет девет " : String).data⟩ : String) =
      "плюс три пет девет" := rfl
  rw [hstr]
  cases h2 : pairLoop ('0' :: X) with
  | none => rfl
  | some pp => rfl

open BG BG.Gender in
example : normalize true "Това е 21-ви век." = some "Това е двадесет и първи век." := rfl
open BG BG.Gender in
example : normalize true "бул. Витоша №10, гр. София" =
    some "булевард Витоша номер десет, град София" := rfl
open BG BG.Gender in
example : normalize true "Населението е 7 000 000 души." =
    some "Населението е седем милиона души." := rfl
open BG BG.Gender in
example : normalize true "Цена: 99.99 лв." =
    some "Цена: деветдесет и девет лева и деветдесет и девет стотинки." := rfl
open BG BG.Gender in
example : normalize true "На 15.02.2026 г. в 14:30 ч. цената е 1500.50 лв." =
    some "На петнадесети февруари две хиляди двадесет и шеста година в четиринадесет и тридесет часа цената е хиляда и петстотин лева и петдесет стотинки." := rfl
open BG BG.Gender in
example : normalize true "15.5%" = some "петнадесет цяло и пет десети процента" := rfl
open BG BG.Gender in
example : normalize true "XL глава" = some "XL глава" := rfl
open BG BG.Gender in
example : normalize true "1000000-ви" = none := rfl
open BG BG.Gender in
example : normalize true "0.5.2024" = some "нула май две хиляди двадесет и четвърта" := rfl
open BG BG.Gender in
example : normalizeDatesPass "35.13.2024".data = some "35.13.2024".data := rfl
open BG BG.Gender in
example : normalize true "Среща в 9:05 часа." = some "Среща в девет и пет часа." := rfl
open BG BG.Gender in
example : normalize true "Роден на 01.01.2000 г." =
    some "Роден на първи януари двехилядна година" := rfl
open BG BG.Gender in
example : normalize true "На 3-ти март 1878 г." =
    some "На трети март хиляда осемстотин седемдесет и осма година" := rfl
open BG BG.Gender in
example : normalize true "Има 1 000 001 жители." =
    some "Има един милион и един жители." := rfl
open BG BG.Gender in
example : normalize true "В 12:00 ч. е обяд." = some "В дванадесет часа е обяд." := rfl
open BG BG.Gender in
example : normalize true "Заплата: 2500 лв." =
    some "Заплата: две хиляди и петстотин лева." := rfl
open BG BG.Gender in
example : normalize true "Доставка на 25.12." =
    some "Доставка на двадесет и пети декември." := rfl
open BG BG.Gender in
example : normalize true "1-ва категория" = some "първа категория" := rfl
open BG BG.Gender in
example : normalize true "5-то издание" = some "пето издание" := rfl
open BG BG.Gender in
example : normalize true "Той е на 35 години." = some "Той е на тридесет и пет години." := rfl

open BG BG.Gender in
example : pyFloat10g "15.5" = some "15.5" := rfl
open BG BG.Gender in
example : pyFloat10g "35.13" = some "35.13" := rfl
open BG BG.Gender in
example : pyFloat10g "3.14" = some "3.14" := rfl
open BG BG.Gender in
example : pyFloat10g "100" = some "100" := rfl
open BG BG.Gender in
example : pyFloat10g "0.25" = some "0.25" := rfl
open BG BG.Gender in
example : pyFloat10g "1.00000000001" = some "1" := rfl
open BG BG.Gender in
example : pyFloat10g "1234567890123456.5" = some "1.23456789e+15" := rfl
open BG BG.Gender in
example : float_to_words_floatArg "15.5" n = some "петнадесет цяло и пет десети" := rfl

open BG BG.Gender in
example : roman_to_arabic "XIV" = some 14 := rfl
open BG BG.Gender in
example : roman_to_arabic "XL" = some 40 := rfl
open BG BG.Gender in
example : roman_to_arabic "ABC" = none := rfl
open BG BG.Gender in
example : normalize_date 15 2 (some 2026) true =
    some "петнадесети февруари две хиляди двадесет и шеста година" := rfl
open BG BG.Gender in
example : normalize_date 35 13 (some 2024) false = some "35.13.2024" := rfl
open BG BG.Gender in
example : normalize_time 14 30 true = some "четиринадесет и тридесет часа" := rfl
open BG BG.Gender in
example : normalize_currency "1500.50" "BGN" =
    some "хиляда и петстотин лева и петдесет стотинки" := rfl
open BG BG.Gender in
example : normalize_currency "0.01" "BGN" = some "една стотинка" := rfl
open BG BG.Gender in
example : normalize_phone_number "+359 888 123 456" =
    some "плюс три пет девет нула осем осемдесет и осем дванадесет тридесет и четири петдесет и шест" := rfl

open BG BG.Gender in
example : number_to_words_cardinal 0 m = some "нула" := rfl
open BG BG.Gender in
example : number_to_words_cardinal 21 f = some "двадесет и една" := rfl
open BG BG.Gender in
example : number_to_words_cardinal 2500 m = some "две хиляди и петстотин" := rfl
open BG BG.Gender in
example : number_to_words_cardinal 1234567 m =
    some "един милион двеста тридесет и четири хиляди петстотин шестдесет и седем" := rfl
open BG BG.Gender in
example : number_to_words_ordinal 2026 f = some "две хиляди двадесет и шеста" := rfl
open BG BG.Gender in
example : number_to_words_ordinal 1000000 m = none := rfl
open BG BG.Gender in
example : float_to_words_str "3.14" n = some "три цяло и четиринадесет стотни" := rfl

/-! ### Cardinal well-formedness (C7) -/

set_option maxHeartbeats 2000000 in
lemma u1000_good : ∀ k, k < 1000 → u1000Check k = true := by decide

lemma u1000_some {k : Nat} (hk : k < 1000) (g : Gender) :
    ∃ s, cardinal_under_1000 k g = some s ∧ (k ≠ 0 → goodL s.data = true) := by
  have h := u1000_good k hk
  unfold u1000Check at h
  have hg := List.all_eq_true.mp h g (by cases g <;> simp)
  cases hc : cardinal_under_1000 k g with
  | none => rw [hc] at hg; simp at hg
  | some s =>
    rw [hc] at hg
    refine ⟨s, rfl, fun hk0 => ?_⟩
    have : (k == 0 || goodL s.data) = true := hg
    rcases Bool.or_eq_true_iff.mp this with h0 | h1
    · exact absurd (by simpa using h0 : k = 0) hk0
    · exact h1

lemma goodL_parts {l : List Char} (h : goodL l = true) :
    l ≠ [] ∧ noDoubleWS l = true ∧ isWSO l.head? = false ∧ isWSO l.getLast? = false := by
  simp only [goodL, Bool.and_eq_true, Bool.not_eq_true'] at h
  refine ⟨?_, h.1.1.2, h.1.2, h.2⟩
  intro heq
  rw [heq] at h
  exact absurd h.1.1.1 (by decide)

lemma goodL_mk {l : List Char} (h1 : l ≠ []) (h2 : noDoubleWS l = true)
    (h3 : isWSO l.head? = false) (h4 : isWSO l.getLast? = false) : goodL l = true := by
  have he : l.isEmpty = false := by
    cases l with
    | nil => exact absurd rfl h1
    | cons a t => rfl
  simp [goodL, he, h2, h3, h4]

lemma ndw_append : ∀ (x y : List Char), noDoubleWS x = true → noDoubleWS y = true →
    (isWSO x.getLast? = false ∨ isWSO y.head? = false) →
    noDoubleWS (x ++ y) = true := by
  intro x
  induction x with
  | nil => intro y _ hy _; simpa using hy
  | cons a t ih =>
    intro y hx hy hj
    cases t with
    | nil =>
      cases y with
      | nil => simp [noDoubleWS]
      | cons b u =>
        have hj' : isWS a = false ∨ isWS b = false := by
          simpa [isWSO] using hj
        have : (a :: ([] : List Char)) ++ b :: u = a :: b :: u := rfl
        rw [this]
        simp only [noDoubleWS, Bool.and_eq_true]
        constructor
        · rcases hj' with h | h <;> simp [h]
        · exact hy
    | cons b u =>
      have hx' : (!(isWS a && isWS b)) = true ∧ noDoubleWS (b :: u) = true := by
        simpa [noDoubleWS, Bool.and_eq_true] using hx
      have hj' : isWSO (b :: u).getLast? = false ∨ isWSO y.head? = false := by
        rcases hj with h | h
        · left; rw [List.getLast?_cons_cons] at h; exact h
        · right; exact h
      have ihr := ih y hx'.2 hy hj'
      have : (a :: b :: u) ++ y = a :: ((b :: u) ++ y) := rfl
      rw [this]
      have h2 : (b :: u) ++ y = b :: (u ++ y) := rfl
      rw [h2] at ihr ⊢
      simp only [noDoubleWS, Bool.and_eq_true]
      exact ⟨hx'.1, ihr⟩

lemma goodL_append_space {x y : List Char} (hx : goodL x = true) (hy : goodL y = true) :
    goodL (x ++ ' ' :: y) = true := by
  obtain ⟨hx1, hx2, hx3, hx4⟩ := goodL_parts hx
  obtain ⟨hy1, hy2, hy3, hy4⟩ := goodL_parts hy
  apply goodL_mk
  · simp
  · apply ndw_append x (' ' :: y) hx2
    · cases y with
      | nil => exact absurd rfl hy1
      | cons c u =>
        simp only [noDoubleWS, Bool.and_eq_true]
        have hc : isWS c = false := by simpa [isWSO] using hy3
        exact ⟨by simp [hc], hy2⟩
    · left; exact hx4
  · rw [List.head?_append]
    cases x with
    | nil => exact absurd rfl hx1
    | cons a t => simpa [Option.or] using hx3
  · rw [List.getLast?_append]
    cases y with
    | nil => exact absurd rfl hy1
    | cons c u =>
      rw [List.getLast?_cons_cons]
      cases hgl : (c :: u).getLast? with
      | none =>
        have := List.getLast?_isSome.mpr (List.cons_ne_nil c u)
        rw [hgl] at this
        simp at this
      | some d =>
        rw [hgl] at hy4
        simpa [Option.or] using hy4

lemma sjoin_cons_data (s b : String) (u : List String) :
    (sjoin " " (s :: b :: u)).data = s.data ++ ' ' :: (sjoin " " (b :: u)).data := by
  show (s ++ " " ++ sjoin " " (b :: u)).data = _
  rw [String.data_append, String.data_append, List.append_assoc]
  rfl

lemma sjoin_good : ∀ (parts : List String), parts ≠ [] →
    (∀ p ∈ parts, goodL p.data = true) → goodL (sjoin " " parts).data = true := by
  intro parts
  induction parts with
  | nil => intro h; exact absurd rfl h
  | cons s rest ih =>
    intro _ hall
    cases rest with
    | nil => exact hall s (List.mem_cons_self s [])
    | cons b u =>
      rw [sjoin_cons_data]
      exact goodL_append_space (hall s (List.mem_cons_self s (b :: u)))
        (ih (List.cons_ne_nil b u) (fun p hp => hall p (List.mem_cons_of_mem s hp)))
lemma goodL_append_strcat {s : String} {tail : List Char} (hs : goodL s.data = true)
    (ht : goodL tail = true) (w : String) (hw : w.data = ' ' :: tail) :
    goodL (s ++ w).data = true := by
  rw [String.data_append, hw]
  exact goodL_append_space hs ht

lemma scale_shape (k : Nat) (hk : k < 1000) (g : Gender) (w1 w2 sfxword : String)
    (h1 : goodL w1.data = true) (h2 : goodL w2.data = true)
    (hx : ∀ s : String, goodL s.data = true → goodL (s ++ sfxword).data = true) :
    ∃ ps : List String,
      (if k > 0 then
         if k = 1 then (some [w1] : Option (List String))
         else if k = 2 then some [w2]
         else (cardinal_under_1000 k g).map (fun s => [s ++ sfxword])
       else some []) = some ps ∧
      (∀ p ∈ ps, goodL p.data = true) ∧ (ps = [] ↔ k = 0) := by
  by_cases hk0 : k > 0
  · rw [if_pos hk0]
    by_cases hk1 : k = 1
    · rw [if_pos hk1]
      exact ⟨[w1], rfl, by simpa using h1, by simp; omega⟩
    · rw [if_neg hk1]
      by_cases hk2 : k = 2
      · rw [if_pos hk2]
        exact ⟨[w2], rfl, by simpa using h2, by simp; omega⟩
      · rw [if_neg hk2]
        obtain ⟨s, hs, hgood⟩ := u1000_some hk g
        rw [hs, Option.map_some']
        refine ⟨[s ++ sfxword], rfl, ?_, by simp; omega⟩
        intro p hp
        have hp' : p = s ++ sfxword := by simpa using hp
        subst hp'
        exact hx s (hgood (by omega))
  · rw [if_neg hk0]
    exact ⟨[], rfl, by simp, ⟨fun _ => by omega, fun _ => rfl⟩⟩

lemma cardinalCore_good (num : Nat) (g : Gender) (hge : 1 ≤ num)
    (hle : num ≤ 999999999999) :
    ∃ s : String, cardinalCore num g = some s ∧ goodL s.data = true := by
  have hb : num / 1000000000 < 1000 := by omega
  have hm : num % 1000000000 / 1000000 < 1000 := by omega
  have ht : num % 1000000000 % 1000000 / 1000 < 1000 := by omega
  have hr : num % 1000000000 % 1000000 % 1000 < 1000 := by omega
  obtain ⟨psB, hB, hBg, hBe⟩ := scale_shape (num / 1000000000) hb m
    "един милиард" "два милиарда" " милиарда" (by decide) (by decide)
    (fun s hs => goodL_append_strcat hs (by decide) _ rfl)
  obtain ⟨psM, hM, hMg, hMe⟩ := scale_shape (num % 1000000000 / 1000000) hm m
    "един милион" "два милиона" " милиона" (by decide) (by decide)
    (fun s hs => goodL_append_strcat hs (by decide) _ rfl)
  obtain ⟨psT, hT, hTg, hTe⟩ := scale_shape (num % 1000000000 % 1000000 / 1000) ht f
    "хиляда" "две хиляди" " хиляди" (by decide) (by decide)
    (fun s hs => goodL_append_strcat hs (by decide) _ rfl)
  have hallp : ∀ p ∈ psB ++ psM ++ psT, goodL p.data = true := by
    intro p hp
    rcases List.mem_append.mp hp with h | h
    · rcases List.mem_append.mp h with h2 | h2
      · exact hBg p h2
      · exact hMg p h2
    · exact hTg p h
  simp only [cardinalCore]
  rw [if_neg (by omega : ¬ num > 999999999999)]
  simp only [hB, hM, hT, Option.some_bind]
  by_cases hr0 : num % 1000000000 % 1000000 % 1000 > 0
  · rw [if_pos hr0]
    obtain ⟨s, hs, hgood⟩ := u1000_some hr g
    simp only [hs, Option.some_bind]
    have hsg : goodL s.data = true := hgood (by omega)
    have hand : goodL ("и " ++ s).data = true := by
      rw [String.data_append]
      exact goodL_append_space (x := ['и']) (by decide) hsg
    by_cases hp0 : psB ++ psM ++ psT ≠ []
    · rw [if_pos hp0]
      have hgall : ∀ (x : String), goodL x.data = true →
          ∀ p ∈ psB ++ psM ++ psT ++ [x], goodL p.data = true := by
        intro x hxg p hp
        rcases List.mem_append.mp hp with h | h
        · exact hallp p h
        · have : p = x := by simpa using h
          subst this; exact hxg
      have hne : ∀ (x : String), psB ++ psM ++ psT ++ [x] ≠ [] := by
        intro x h
        simpa using congrArg List.length h
      by_cases hc1 : num % 1000000000 % 1000000 % 1000 < 100
      · rw [if_pos hc1, Option.some_bind]
        exact ⟨_, rfl, sjoin_good _ (hne _) (hgall _ hand)⟩
      · rw [if_neg hc1]
        by_cases hc2 : num % 1000000000 % 1000000 % 1000 % 100 = 0
        · rw [if_pos hc2, Option.some_bind]
          exact ⟨_, rfl, sjoin_good _ (hne _) (hgall _ hand)⟩
        · rw [if_neg hc2, Option.some_bind]
          exact ⟨_, rfl, sjoin_good _ (hne _) (hgall _ hsg)⟩
    · rw [if_neg hp0, Option.some_bind]
      refine ⟨_, rfl, sjoin_good _ (List.cons_ne_nil s []) ?_⟩
      intro p hp
      have : p = s := by simpa using hp
      subst this; exact hsg
  · rw [if_neg hr0, Option.some_bind]
    have hd : num / 1000000000 ≠ 0 ∨ num % 1000000000 / 1000000 ≠ 0 ∨
        num % 1000000000 % 1000000 / 1000 ≠ 0 := by omega
    have hne : psB ++ psM ++ psT ≠ [] := by
      intro h
      rw [List.append_eq_nil, List.append_eq_nil] at h
      rcases hd with h1 | h1 | h1
      · exact h1 (hBe.mp h.1.1)
      · exact h1 (hMe.mp h.1.2)
      · exact h1 (hTe.mp h.2)
    exact ⟨_, rfl, sjoin_good _ hne hallp⟩

/-- Claim C7: for every integer in [0, 999999999999] and every gender,
`number_to_words_cardinal` returns (without raising) a non-empty string with
no two consecutive whitespace characters, is deterministic, and maps 0 to the
fixed zero word `"нула"` for every gender. -/
theorem c7_cardinal_props :
    (∀ (num : Nat) (g : Gender), num ≤ 999999999999 →
        ∃ s : String, number_to_words_cardinal (num : Int) g = some s ∧
          s ≠ "" ∧ noDoubleWS s.data = true) ∧
    (∀ g : Gender, number_to_words_cardinal 0 g = some "нула") ∧
    (∀ (a b : Int) (g₁ g₂ : Gender), a = b → g₁ = g₂ →
        number_to_words_cardinal a g₁ = number_to_words_cardinal b g₂) := by
  refine ⟨?_, fun g => rfl, ?_⟩
  · intro num g hle
    by_cases h0 : num = 0
    · subst h0
      exact ⟨"нула", rfl, by decide, by decide⟩
    · obtain ⟨s, hs, hg⟩ := cardinalCore_good num g (by omega) hle
      refine ⟨s, ?_, ?_, (goodL_parts hg).2.1⟩
      · unfold number_to_words_cardinal
        rw [if_neg (by exact_mod_cast h0 : ¬ ((num : Int) = 0)),
          if_neg (not_lt.mpr (Int.natCast_nonneg num)), Int.toNat_natCast]
        exact hs
      · intro heq
        rw [heq] at hg
        exact absurd hg (by decide)
  · rintro a b g₁ g₂ rfl rfl
    rfl

/-- Witness for the C7 theorem at a concrete input. -/
theorem c7_witness :
    ∃ s : String, number_to_words_cardinal (1234567 : Int) Gender.m = some s ∧
      s ≠ "" ∧ noDoubleWS s.data = true :=
  c7_cardinal_props.1 1234567 Gender.m (by decide)
